import Mathlib

/-!
The storage index of file-share (src/fileshare/lib/storage.go)

A shallow embedding of `Storage` and its operations `NewStorage`, `New`
(`uploadNew`), `Get`, `Count`, `dropOldEntries`, `dropObsoleteFiles` and
`CollectGarbage`, together with the lifetime parsing of the upload handler
(src/fileshare/lib/methods.go) and `getFilename` of the upload client
(src/uploader/main/main.go).

The three collaborators of the storage index are modelled as plain data:

* the `SharedFiles` table of the `*sql.DB` is the list of its rows;
* the `afero.Fs` is seen at the storage root: the regular files directly in the
  root directory (entry name and bytes), which is the only layout `uploadNew`
  produces, or nothing when the directory does not exist;
* the `Time` interface is the value `UTCNow()` returns.

Every library call that can return an error takes its outcome from an `Env`, so
that each error branch of the source is reachable in the model.  Log output is
not modelled.
-/

namespace FileShare

/-! ## Errors and machine integers -/

/-- The errors the storage index can hand to its caller. -/
inductive Error where
  /-- The value `os.ErrNotExist`. -/
  | ErrNotExist
  /-- Violation of the PRIMARY KEY constraint on `SharedFiles.uuid`. -/
  | constraint
  /-- Any other error reported by a library call. -/
  | other (msg : String)
  deriving DecidableEq, Repr

/-- Reduction of an integer to the range of Go's `int64` (two's complement). -/
def toInt64 (x : Int) : Int :=
  (x + 2 ^ 63) % 2 ^ 64 - 2 ^ 63

/-- Go's `+` on `int64`: the sum wraps around. -/
def int64Add (a b : Int) : Int :=
  toInt64 (a + b)

/-- Go's `filepath.Join(dir, name)` for a cleaned directory path and an entry
name without separator (such as `uuid.String()`). -/
def filepathJoin (dir name : String) : String :=
  dir ++ "/" ++ name

/-! ## Record store: the table `SharedFiles` -/

/-- One row of `SharedFiles (uuid CHAR(36) PRIMARY KEY, expires INTEGER NOT NULL,
name VARCHAR(255))`. -/
structure Row where
  uuid : String
  expires : Int
  name : String
  deriving DecidableEq, Repr

/-- The rows of `SharedFiles`, oldest first. -/
abbrev Table := List Row

/-- The statement `INSERT INTO SharedFiles VALUES (?, ?, ?)`: a driver error `exec`
is returned as it is; otherwise the PRIMARY KEY on `uuid` rejects a row whose
`uuid` is already in the table, and a fresh row is added. -/
def Table.insert (t : Table) (exec : Option Error) (r : Row) : Except Error Table :=
  match exec with
  | some e => .error e
  | none => if t.any (fun x => x.uuid == r.uuid) then .error Error.constraint else .ok (t ++ [r])

/-- The rows selected by `... FROM SharedFiles WHERE uuid = ?`. -/
def Table.select (t : Table) (id : String) : List Row :=
  t.filter (fun r => r.uuid == id)

/-- The statement `DELETE FROM SharedFiles WHERE expires < ?`. -/
def Table.deleteExpiredBefore (t : Table) (now : Int) : Table :=
  t.filter (fun r => !decide (r.expires < now))

/-! ## Blob store: the `afero.Fs` at the storage root -/

/-- A byte of file content. -/
abbrev Byte := Nat

/-- The file system at the storage root `storagePath`: `root = none` when the
directory does not exist, otherwise the regular files directly in it, each with
its entry name (the path of an entry is `filepathJoin storagePath name`) and its
bytes. -/
structure Fs where
  root : Option (List (String × List Byte))
  deriving DecidableEq, Repr

/-- The entries under the storage root; none when the root does not exist. -/
def Fs.files (fs : Fs) : List (String × List Byte) :=
  fs.root.getD []

/-- The call `fs.MkdirAll(storagePath, os.ModePerm)`: the directory exists afterwards,
what it holds is not touched. -/
def Fs.MkdirAll (fs : Fs) (fault : Option Error) : Except Error Fs :=
  match fault with
  | some e => .error e
  | none => .ok { root := some fs.files }

/-- Reading the whole file at `path` (`OpenFile(path, os.O_RDONLY, 0)` followed by
`ioutil.ReadAll`), for the file system rooted at `root`. -/
def Fs.ReadFile (fs : Fs) (root path : String) : Option (List Byte) :=
  (fs.files.find? (fun e => filepathJoin root e.1 == path)).map Prod.snd

/-- The call `fs.OpenFile(filepath.Join(storagePath, name), os.O_WRONLY|os.O_CREATE, 0600)`:
the entry is created empty when it does not exist; an existing entry keeps its
bytes, since the flags do not include `os.O_TRUNC`.  Without the directory the
file cannot be created. -/
def Fs.OpenFile (fs : Fs) (fault : Option Error) (name : String) : Except Error Fs :=
  match fault with
  | some e => .error e
  | none =>
    match fs.root with
    | none => .error (Error.other "no such file or directory")
    | some files =>
      if files.any (fun e => e.1 == name) then .ok fs
      else .ok { root := some (files ++ [(name, [])]) }

/-- Writing `bytes` from offset 0 into a file holding `old`: the first
`bytes.length` bytes are replaced, anything beyond stays. -/
def overwrite (old bytes : List Byte) : List Byte :=
  bytes ++ old.drop bytes.length

/-- Writing `bytes` through the handle that `Fs.OpenFile` returned for `name`. -/
def Fs.Write (fs : Fs) (name : String) (bytes : List Byte) : Fs :=
  { root := fs.root.map
      (List.map (fun e => if e.1 == name then (e.1, overwrite e.2 bytes) else e)) }

/-- The call `fs.Remove(path)` for the file system rooted at `root`: a fault leaves the
entry in place. -/
def Fs.Remove (fs : Fs) (root : String) (fault : Option Error) (path : String) :
    Fs × Option Error :=
  match fault with
  | some e => (fs, some e)
  | none =>
    ({ root := fs.root.map (List.filter (fun e => !(filepathJoin root e.1 == path))) }, none)

/-- The `io.Reader` handed to `New`: the bytes it delivers, followed by end of
file (`err = none`) or by a read error. -/
structure Reader where
  data : List Byte
  err : Option Error
  deriving DecidableEq, Repr

/-- The bytes `io.Copy(destination, source)` writes and the error it returns:
`writeLimit = some k` is a destination that accepts only `k` bytes (for instance
a full disk). -/
def ioCopy (writeLimit : Option Nat) (source : Reader) : List Byte × Option Error :=
  match writeLimit with
  | some k =>
    if k < source.data.length then (source.data.take k, some (Error.other "short write"))
    else (source.data, source.err)
  | none => (source.data, source.err)

/-! ## Environment -/

/-- Outcome of the library calls made while one operation runs: `none` is
success, `some e` is the error `e`. -/
structure Env where
  /-- The result of `uuid.NewRandom()` rendered by `String()`. -/
  newRandom : Except Error String
  /-- The call `fs.MkdirAll`. -/
  mkdirAll : Option Error
  /-- The calls `database.Prepare` and `tx.Prepare`. -/
  prepare : Option Error
  /-- Driver error of `statement.Exec`. -/
  exec : Option Error
  /-- The call `database.Query("SELECT ... WHERE uuid = ?", id)`, by `id`. -/
  query : String → Option Error
  /-- The call `database.Query("SELECT COUNT(*) FROM SharedFiles")`. -/
  queryCount : Option Error
  /-- The call `res.Scan(&count)`. -/
  scanCount : Option Error
  /-- The call `database.Begin`. -/
  begin : Option Error
  /-- The call `tx.Commit`. -/
  commit : Option Error
  /-- The call `fs.OpenFile`. -/
  openFile : Option Error
  /-- Number of bytes the destination of `io.Copy` accepts, when limited. -/
  writeLimit : Option Nat
  /-- The call `fs.Remove(path)`, by path. -/
  remove : String → Option Error

/-- The environment in which every library call succeeds and `uuid.NewRandom`
yields `id`. -/
def Env.ok (id : String) : Env where
  newRandom := .ok id
  mkdirAll := none
  prepare := none
  exec := none
  query := fun _ => none
  queryCount := none
  scanCount := none
  begin := none
  commit := none
  openFile := none
  writeLimit := none
  remove := fun _ => none

/-- No store operation fails in `env`: every call on the record store and on the
blob store succeeds. -/
structure Env.NoStoreFault (env : Env) : Prop where
  mkdirAll : env.mkdirAll = none
  prepare : env.prepare = none
  exec : env.exec = none
  query : ∀ id, env.query id = none
  queryCount : env.queryCount = none
  scanCount : env.scanCount = none
  begin : env.begin = none
  commit : env.commit = none
  openFile : env.openFile = none
  writeLimit : env.writeLimit = none
  remove : ∀ p, env.remove p = none

/-! ## The storage index -/

/-- The type `Storage`: record store, blob store, storage root and clock. -/
structure Storage where
  database : Table
  fs : Fs
  storagePath : String
  /-- The value `time.UTCNow()` returns. -/
  time : Int
  deriving DecidableEq, Repr

/-- The type `FileDescriptor`. -/
structure FileDescriptor where
  uuid : String
  path : String
  expires : Int
  name : String
  deriving DecidableEq, Repr

/-- The constructor `NewStorage`: `database = none` is a database in which
`SharedFiles` does not exist yet; `CREATE TABLE IF NOT EXISTS` keeps an existing
table as it is. -/
def NewStorage (database : Option Table) (fs : Fs) (storagePath : String) (time : Int)
    (env : Env) : Except Error Storage :=
  match fs.MkdirAll env.mkdirAll with
  | .error e => .error e
  | .ok fs1 =>
    match env.prepare with
    | some e => .error e
    | none =>
      match env.exec with
      | some e => .error e
      | none =>
        .ok { database := database.getD [], fs := fs1, storagePath := storagePath, time := time }

/-- The method `Storage.uploadNew`: the state after the call and the returned
identifier or error.  The result of `io.Copy` is dropped, as in the source. -/
def Storage.uploadNew (index : Storage) (env : Env) (lifetime : Int) (source : Reader)
    (name : String) : Storage × Except Error String :=
  match env.newRandom with
  | .error e => (index, .error e)
  | .ok id =>
    let now := index.time
    let expiry := int64Add now lifetime
    match env.prepare with
    | some e => (index, .error e)
    | none =>
      match index.database.insert env.exec ⟨id, expiry, name⟩ with
      | .error e => (index, .error e)
      | .ok database1 =>
        match index.fs.OpenFile env.openFile id with
        | .error e => ({ index with database := database1 }, .error e)
        | .ok fs1 =>
          let copied := ioCopy env.writeLimit source
          ({ index with database := database1, fs := fs1.Write id copied.1 }, .ok id)

/-- The method `Storage.New`: `uploadNew` followed by a log line. -/
def Storage.New (index : Storage) (env : Env) (lifetime : Int) (source : Reader)
    (name : String) : Storage × Except Error String :=
  index.uploadNew env lifetime source name

/-- The method `Storage.Get`: the state is not changed, so only the result is
returned. -/
def Storage.Get (index : Storage) (env : Env) (id : String) : Except Error FileDescriptor :=
  match env.query id with
  | some e => .error e
  | none =>
    match index.database.select id with
    | r :: _ =>
      .ok { uuid := id, path := filepathJoin index.storagePath id,
            expires := r.expires, name := r.name }
    | [] => .error Error.ErrNotExist

/-- The method `Storage.Count`: the pair `(count, err)` of the source, `-1` with
an error. -/
def Storage.Count (index : Storage) (env : Env) : Int × Option Error :=
  match env.queryCount with
  | some e => (-1, some e)
  | none =>
    match env.scanCount with
    | some e => (-1, some e)
    | none => ((index.database.length : Int), none)

/-- The method `Storage.dropOldEntries`: the state after the call and the triple
`(initialCount, finalCount, err)`.  A transaction that is rolled back or whose
commit fails leaves the table as it was. -/
def Storage.dropOldEntries (index : Storage) (env : Env) : Storage × Int × Int × Option Error :=
  let initialCount := (index.Count env).1
  let now := index.time
  match env.begin with
  | some e => (index, -1, -1, some e)
  | none =>
    match env.prepare with
    | some e => (index, -1, -1, some e)
    | none =>
      match env.exec with
      | some e => (index, -1, -1, some e)
      | none =>
        match env.commit with
        | some e => (index, -1, -1, some e)
        | none =>
          let index1 := { index with database := index.database.deleteExpiredBefore now }
          let finalCount := (index1.Count env).1
          (index1, initialCount, finalCount, none)

/-- Lexical order on names, character by character: the order of `sort.Strings`. -/
def lexLE : List Char → List Char → Bool
  | [], _ => true
  | _ :: _, [] => false
  | a :: as, b :: bs => decide (a.toNat < b.toNat) || (a == b && lexLE as bs)

/-- The names `afero.Walk` visits under the root: the entries of the directory in
lexical order. -/
def readDirNames (fs : Fs) : List String :=
  (fs.files.map Prod.fst).insertionSort (fun a b => lexLE a.data b.data = true)

/-- The function literal `dropObsoleteFiles` hands to `afero.Walk`, called with
the `path` of an entry and the `name` of its `os.FileInfo`; the state it updates
is the file system and `removalCounter`. -/
def Storage.walkFn (index : Storage) (env : Env) (path name : String) (st : Fs × Nat) :
    (Fs × Nat) × Option Error :=
  if path = index.storagePath then (st, none)
  else
    match env.query name with
    | some e => (st, some e)
    | none =>
      if (index.database.select name).isEmpty then
        match st.1.Remove index.storagePath (env.remove path) path with
        | (fs1, none) => ((fs1, st.2 + 1), none)
        | (fs1, some e) => ((fs1, st.2), some e)
      else (st, none)

/-- The loop of `afero.Walk` over the names read from the root: each entry is
visited once, and the first error returned by `walkFn` ends the walk. -/
def walkNames (root : String) (walkFn : String → String → Fs × Nat → (Fs × Nat) × Option Error) :
    List String → Fs × Nat → (Fs × Nat) × Option Error
  | [], st => (st, none)
  | name :: rest, st =>
    match walkFn (filepathJoin root name) name st with
    | (st1, some e) => (st1, some e)
    | (st1, none) => walkNames root walkFn rest st1

/-- The function `afero.Walk(fs, root, walkFn)`: when the root does not exist,
`walkFn` is called for the root alone; otherwise the root is visited first, then
its entries.  The name in the root's `os.FileInfo` is not modelled: `walkFn`
returns for the root before reading it. -/
def Walk (fs : Fs) (root : String)
    (walkFn : String → String → Fs × Nat → (Fs × Nat) × Option Error) (st : Fs × Nat) :
    (Fs × Nat) × Option Error :=
  match fs.root with
  | none => walkFn root root st
  | some _ =>
    match walkFn root root st with
    | (st1, some e) => (st1, some e)
    | (st1, none) => walkNames root walkFn (readDirNames fs) st1

/-- The method `Storage.dropObsoleteFiles`: the state after the call and the pair
`(removalCounter, err)`. -/
def Storage.dropObsoleteFiles (index : Storage) (env : Env) : Storage × Nat × Option Error :=
  match Walk index.fs index.storagePath (index.walkFn env) (index.fs, 0) with
  | ((fs1, removalCounter), err) => ({ index with fs := fs1 }, removalCounter, err)

/-- The method `Storage.CollectGarbage`: both sweeps in turn; the error returned
is the one of `dropObsoleteFiles`. -/
def Storage.CollectGarbage (index : Storage) (env : Env) : Storage × Option Error :=
  match index.dropOldEntries env with
  | (index1, _, _, _) =>
    match index1.dropObsoleteFiles env with
    | (index2, _, err) => (index2, err)

/-! ## The lifetime of an upload request (src/fileshare/lib/methods.go) -/

/-- The value of a run of decimal digits; `none` when the run is empty or holds
another character. -/
def parseDigits : List Char → Option Nat
  | [] => none
  | cs => cs.foldl
      (fun acc c => if c.isDigit then acc.map (fun n => 10 * n + (c.toNat - 48)) else none)
      (some 0)

/-- Go's `strconv.ParseInt(s, 10, 64)`: an optional sign and decimal digits, with
an error when the text is not of that form or the value is not an `int64`. -/
def strconvParseInt (s : String) : Except Error Int :=
  match s.data with
  | '-' :: ds =>
    match parseDigits ds with
    | some n => if n ≤ 2 ^ 63 then .ok (-(n : Int)) else .error (Error.other "value out of range")
    | none => .error (Error.other "invalid syntax")
  | '+' :: ds =>
    match parseDigits ds with
    | some n => if n < 2 ^ 63 then .ok (n : Int) else .error (Error.other "value out of range")
    | none => .error (Error.other "invalid syntax")
  | ds =>
    match parseDigits ds with
    | some n => if n < 2 ^ 63 then .ok (n : Int) else .error (Error.other "value out of range")
    | none => .error (Error.other "invalid syntax")

/-! ## The upload client (src/uploader/main/main.go) -/

/-- Go's `unicode.IsSpace`: the white space characters `strings.Fields` splits
around. -/
def isSpace (c : Char) : Bool :=
  c.toNat ∈ [0x09, 0x0A, 0x0B, 0x0C, 0x0D, 0x20, 0x85, 0xA0, 0x1680, 0x2028, 0x2029, 0x202F,
      0x205F, 0x3000] ||
    (decide (0x2000 ≤ c.toNat) && decide (c.toNat ≤ 0x200A))

/-- The fields of the characters still to read, `cur` being the characters of the
field under way, last one first. -/
def fieldsAux : List Char → List Char → List (List Char)
  | [], cur => if cur.isEmpty then [] else [cur.reverse]
  | c :: cs, cur =>
    if isSpace c then
      if cur.isEmpty then fieldsAux cs [] else cur.reverse :: fieldsAux cs []
    else fieldsAux cs (c :: cur)

/-- Go's `strings.Fields(s)`: the maximal runs of characters of `s` that are not
white space, in order; no field when `s` holds white space only. -/
def stringsFields (s : String) : List String :=
  (fieldsAux s.data []).map String.mk

/-- The function `getFilename`, given the value of `SSH_ORIGINAL_COMMAND` (empty
when the variable is not set) and `time.Now().UTC().Unix()`.  The result is `none`
when the index expression `strings.Fields(originalCmd)[0]` is out of range, which
is a run-time panic in Go. -/
def getFilename (originalCmd : String) (unixNow : Int) : Option String :=
  if originalCmd.length = 0 then some (toString unixNow)
  else (stringsFields originalCmd)[0]?

/-! ## Auxiliary definitions for the sweeps -/

/-- Whether a row with uuid `name` exists: the test `res.Next()` of `walkFn`. -/
def Table.hasRecord (t : Table) (name : String) : Bool :=
  !(Table.select t name).isEmpty

/-- The entries a walk over `names` leaves in place: those not visited and those
with a row. -/
def walkKeeps (t : Table) (names : List String) (e : String × List Byte) : Bool :=
  !(decide (e.1 ∈ names) && (Table.select t e.1).isEmpty)

/-- The file system with the entries that have no row in `t` taken away. -/
def Fs.keepRecorded (fs : Fs) (t : Table) : Fs :=
  { root := fs.root.map (List.filter (fun e => Table.hasRecord t e.1)) }

/-! ## Paths -/

theorem filepathJoin_data (dir name : String) :
    (filepathJoin dir name).data = dir.data ++ '/' :: name.data := by
  simp [filepathJoin, String.data_append]

theorem filepathJoin_inj (dir a b : String) : filepathJoin dir a = filepathJoin dir b ↔ a = b := by
  constructor
  · intro h
    have h1 := congrArg String.data h
    rw [filepathJoin_data, filepathJoin_data] at h1
    have h2 := List.append_cancel_left h1
    exact String.ext (List.cons.inj h2).2
  · intro h
    rw [h]

theorem filepathJoin_ne_dir (dir name : String) : filepathJoin dir name ≠ dir := by
  intro h
  have h1 := congrArg (fun s => s.data.length) h
  simp [filepathJoin_data] at h1

/-! ## Record store lemmas -/

theorem Table.select_append (t u : Table) (id : String) :
    Table.select (t ++ u) id = Table.select t id ++ Table.select u id := by
  simp [Table.select]

theorem Table.select_eq_nil_iff (t : Table) (id : String) :
    Table.select t id = [] ↔ ∀ r ∈ t, r.uuid ≠ id := by
  simp [Table.select, List.filter_eq_nil_iff]

theorem Table.any_uuid_eq_false_iff (t : Table) (id : String) :
    t.any (fun x => x.uuid == id) = false ↔ ∀ r ∈ t, r.uuid ≠ id := by
  simp [List.any_eq_false]

/-- A successful insert: the driver reported no error, no row had that `uuid`,
and the row is added at the end. -/
theorem Table.insert_ok {t t1 : Table} {exec : Option Error} {r : Row}
    (h : Table.insert t exec r = .ok t1) :
    exec = none ∧ (∀ x ∈ t, x.uuid ≠ r.uuid) ∧ t1 = t ++ [r] := by
  unfold Table.insert at h
  cases exec with
  | some e => simp at h
  | none =>
    by_cases hany : t.any (fun x => x.uuid == r.uuid) = true
    · simp [hany] at h
    · have hfalse : t.any (fun x => x.uuid == r.uuid) = false := by simpa using hany
      simp only [hfalse] at h
      refine ⟨rfl, (Table.any_uuid_eq_false_iff t r.uuid).1 hfalse, ?_⟩
      simpa using (Except.ok.inj h).symm

/-- With `uuid` a key of the table, the query by the `uuid` of a row selects that
row alone. -/
theorem Table.select_of_mem {t : Table} {r : Row} (hmem : r ∈ t)
    (hkey : (t.map Row.uuid).Nodup) : Table.select t r.uuid = [r] := by
  induction t with
  | nil => simp at hmem
  | cons x t ih =>
    rw [List.map_cons, List.nodup_cons] at hkey
    obtain ⟨hx, hrest⟩ := hkey
    have hcons : Table.select (x :: t) r.uuid =
        (if (x.uuid == r.uuid) = true then x :: Table.select t r.uuid
          else Table.select t r.uuid) := by
      simp only [Table.select, List.filter_cons]
    rcases List.mem_cons.1 hmem with heq | hin
    · subst heq
      have hnil : Table.select t r.uuid = [] := by
        rw [Table.select_eq_nil_iff]
        intro y hy hyr
        exact hx (hyr ▸ List.mem_map_of_mem Row.uuid hy)
      simp [hcons, hnil]
    · have hne : (x.uuid == r.uuid) = false := by
        rw [beq_eq_false_iff_ne]
        intro hxr
        exact hx (hxr ▸ List.mem_map_of_mem Row.uuid hin)
      simp [hcons, hne, ih hin hrest]

/-- The primary key survives a successful insert. -/
theorem Table.insert_nodup {t t1 : Table} {exec : Option Error} {r : Row}
    (h : Table.insert t exec r = .ok t1) (hkey : (t.map Row.uuid).Nodup) :
    (t1.map Row.uuid).Nodup := by
  obtain ⟨_, hfresh, hdb⟩ := Table.insert_ok h
  subst hdb
  rw [List.map_append, List.nodup_append]
  refine ⟨hkey, by simp, ?_⟩
  intro a ha hb
  obtain ⟨x, hx, hxa⟩ := List.mem_map.1 ha
  have hra : a = r.uuid := by simpa using hb
  exact hfresh x hx (hxa.trans hra)

/-- The primary key survives the deletion of expired rows. -/
theorem Table.deleteExpiredBefore_nodup (t : Table) (now : Int)
    (hkey : (t.map Row.uuid).Nodup) :
    ((Table.deleteExpiredBefore t now).map Row.uuid).Nodup :=
  (List.filter_sublist t).map Row.uuid |>.nodup hkey

/-! ## Upload lemmas -/

/-- What a successful `New` did: the identifier came from `uuid.NewRandom`, the
row was inserted, the blob was opened and the bytes `io.Copy` wrote are in it. -/
theorem Storage.New_ok {index index1 : Storage} {env : Env} {lifetime : Int} {source : Reader}
    {name id : String} (h : index.New env lifetime source name = (index1, .ok id)) :
    env.newRandom = .ok id ∧ env.prepare = none ∧
      ∃ database1 fs1,
        index.database.insert env.exec ⟨id, int64Add index.time lifetime, name⟩ = .ok database1 ∧
        index.fs.OpenFile env.openFile id = .ok fs1 ∧
        index1 = { index with
          database := database1, fs := fs1.Write id (ioCopy env.writeLimit source).1 } := by
  unfold Storage.New Storage.uploadNew at h
  cases hr : env.newRandom with
  | error e => simp [hr] at h
  | ok id1 =>
    cases hp : env.prepare with
    | some e => simp [hr, hp] at h
    | none =>
      cases hi : index.database.insert env.exec ⟨id1, int64Add index.time lifetime, name⟩ with
      | error e => simp [hr, hp, hi] at h
      | ok database1 =>
        cases ho : index.fs.OpenFile env.openFile id1 with
        | error e => simp [hr, hp, hi, ho] at h
        | ok fs1 =>
          simp only [hr, hp, hi, ho, Prod.mk.injEq, Except.ok.injEq] at h
          obtain ⟨h1, h2⟩ := h
          subst h2
          exact ⟨rfl, rfl, database1, fs1, hi, ho, h1.symm⟩

/-! ## Blob store lemmas -/

theorem Fs.ReadFile_join (fs : Fs) (root id : String) :
    fs.ReadFile root (filepathJoin root id) =
      (fs.files.find? (fun e => e.1 == id)).map Prod.snd := by
  unfold Fs.ReadFile
  have hp : (fun e : String × List Byte => filepathJoin root e.1 == filepathJoin root id) =
      (fun e => e.1 == id) := by
    funext e
    rw [Bool.eq_iff_iff]
    simp [filepathJoin_inj]
  rw [hp]

theorem find_map_overwrite (l : List (String × List Byte)) (id : String) (bytes : List Byte) :
    ((l.map (fun e => if e.1 == id then (e.1, overwrite e.2 bytes) else e)).find?
        (fun e => e.1 == id)).map Prod.snd =
      ((l.find? (fun e => e.1 == id)).map Prod.snd).map (fun old => overwrite old bytes) := by
  induction l with
  | nil => rfl
  | cons e l ih =>
    by_cases h : e.1 = id
    · simp [List.find?_cons, h]
    · simp only [List.map_cons, List.find?_cons]
      have hb : (e.1 == id) = false := by simpa using h
      simp only [hb, Bool.false_eq_true, if_false]
      exact ih

theorem find_eq_none_of_any_false (l : List (String × List Byte)) (id : String)
    (h : l.any (fun e => e.1 == id) = false) : l.find? (fun e => e.1 == id) = none := by
  rw [List.find?_eq_none]
  intro e he
  have := (List.any_eq_false.1 h) e he
  simpa using this

theorem find_isSome_of_any (l : List (String × List Byte)) (id : String)
    (h : l.any (fun e => e.1 == id) = true) : (l.find? (fun e => e.1 == id)).isSome = true := by
  rw [List.find?_isSome]
  obtain ⟨e, he, hp⟩ := List.any_eq_true.1 h
  exact ⟨e, he, hp⟩

/-- The bytes at `storagePath/id` after `OpenFile` and a write of `bytes`: they
replace the start of what the file held before (nothing, for a new file). -/
theorem Fs.read_after_write {fs fs1 : Fs} {fault : Option Error} (root id : String)
    (bytes : List Byte) (h : fs.OpenFile fault id = .ok fs1) :
    (fs1.Write id bytes).ReadFile root (filepathJoin root id) =
      some (overwrite ((fs.ReadFile root (filepathJoin root id)).getD []) bytes) := by
  rw [Fs.ReadFile_join, Fs.ReadFile_join]
  unfold Fs.OpenFile at h
  cases fault with
  | some e => simp at h
  | none =>
    cases hroot : fs.root with
    | none => simp [hroot] at h
    | some files =>
      simp only [hroot] at h
      by_cases hany : files.any (fun e => e.1 == id) = true
      · simp only [hany, if_true] at h
        have h1 : fs1 = fs := (Except.ok.inj h).symm
        subst h1
        have hsome := find_isSome_of_any files id hany
        obtain ⟨e, he⟩ := Option.isSome_iff_exists.1 hsome
        have hw := find_map_overwrite files id bytes
        simp only [Fs.Write, Fs.files, hroot, Option.map_some', Option.getD_some] at hw ⊢
        rw [hw, he]
        simp
      · have hfalse : files.any (fun e => e.1 == id) = false := Bool.eq_false_iff.2 hany
        simp only [hfalse, Bool.false_eq_true, if_false] at h
        have h1 : fs1 = { root := some (files ++ [(id, [])]) } := (Except.ok.inj h).symm
        subst h1
        have hnone := find_eq_none_of_any_false files id hfalse
        have hw := find_map_overwrite (files ++ [(id, [])]) id bytes
        simp only [Fs.Write, Fs.files, hroot, Option.map_some', Option.getD_some] at hw ⊢
        rw [hw, hnone]
        simp [List.find?_append, hnone, overwrite]

/-- After a successful `New` returning `id`, `Get(id)` with a succeeding query
finds the row just inserted, whatever the clock shows by then. -/
theorem Storage.Get_of_New_ok {index index1 : Storage} {env : Env} {lifetime : Int}
    {source : Reader} {name id : String} (env1 : Env) (t : Int)
    (hnew : index.New env lifetime source name = (index1, .ok id))
    (hquery : env1.query id = none) :
    Storage.Get { index1 with time := t } env1 id =
      .ok { uuid := id, path := filepathJoin index.storagePath id,
            expires := int64Add index.time lifetime, name := name } := by
  obtain ⟨_, _, database1, fs1, hins, _, hidx⟩ := Storage.New_ok hnew
  obtain ⟨_, hfresh, hdb⟩ := Table.insert_ok hins
  have hsel : Table.select database1 id =
      [⟨id, int64Add index.time lifetime, name⟩] := by
    rw [hdb, Table.select_append, (Table.select_eq_nil_iff _ _).2 hfresh]
    simp [Table.select]
  subst hidx
  simp [Storage.Get, hquery, hsel]

/-- The bytes at `storagePath/id` after a successful `New` returning `id`: what
`io.Copy` wrote, followed by what an earlier file at that path held beyond it. -/
theorem Storage.ReadFile_of_New_ok {index index1 : Storage} {env : Env} {lifetime : Int}
    {source : Reader} {name id : String}
    (hnew : index.New env lifetime source name = (index1, .ok id)) :
    index1.fs.ReadFile index1.storagePath (filepathJoin index1.storagePath id) =
      some (overwrite
        ((index.fs.ReadFile index.storagePath (filepathJoin index.storagePath id)).getD [])
        (ioCopy env.writeLimit source).1) := by
  obtain ⟨_, _, database1, fs1, _, hopen, hidx⟩ := Storage.New_ok hnew
  subst hidx
  exact Fs.read_after_write index.storagePath id _ hopen

/-! ## Garbage collection lemmas -/

theorem walkNames_cons (root : String)
    (walkFn : String → String → Fs × Nat → (Fs × Nat) × Option Error) (n : String)
    (ns : List String) (st : Fs × Nat) :
    walkNames root walkFn (n :: ns) st =
      match walkFn (filepathJoin root n) n st with
      | (st1, some e) => (st1, some e)
      | (st1, none) => walkNames root walkFn ns st1 := rfl

/-- One call of `walkFn` on an entry when neither the query nor the removal
fails: the entry goes when no row carries its name. -/
theorem Storage.walkFn_noFault (index : Storage) (env : Env)
    (hquery : ∀ id, env.query id = none) (hremove : ∀ p, env.remove p = none)
    (n : String) (fs : Fs) (k : Nat) :
    index.walkFn env (filepathJoin index.storagePath n) n (fs, k) =
      if (Table.select index.database n).isEmpty = true then
        (({ root := fs.root.map (List.filter (fun e => !(e.1 == n))) }, k + 1), none)
      else ((fs, k), none) := by
  unfold Storage.walkFn
  simp only [filepathJoin_ne_dir, if_false, hquery, hremove, Fs.Remove]
  have hp : (fun e : String × List Byte =>
      !(filepathJoin index.storagePath e.1 == filepathJoin index.storagePath n)) =
      (fun e => !(e.1 == n)) := by
    funext e
    congr 1
    rw [Bool.eq_iff_iff]
    simp [filepathJoin_inj]
  rw [hp]

theorem walkNames_noFault (index : Storage) (env : Env)
    (hquery : ∀ id, env.query id = none) (hremove : ∀ p, env.remove p = none)
    (names : List String) (fs : Fs) (k : Nat) :
    (walkNames index.storagePath (index.walkFn env) names (fs, k)).2 = none ∧
      (walkNames index.storagePath (index.walkFn env) names (fs, k)).1.1 =
        { root := fs.root.map (List.filter (walkKeeps index.database names)) } := by
  induction names generalizing fs k with
  | nil =>
    refine ⟨rfl, ?_⟩
    have hid : (walkKeeps index.database []) = fun _ => true := by
      funext e
      simp [walkKeeps]
    have hfilter : (List.filter fun _ : String × List Byte => true) = id := by
      funext l
      simp
    simp [walkNames, hid, hfilter]
  | cons n ns ih =>
    rw [walkNames_cons, Storage.walkFn_noFault index env hquery hremove]
    by_cases hempty : (Table.select index.database n).isEmpty = true
    · simp only [hempty, if_true]
      refine ⟨(ih _ _).1, ?_⟩
      rw [(ih _ _).2]
      simp only [Option.map_map, Fs.mk.injEq]
      congr 1
      funext l
      simp only [Function.comp, List.filter_filter]
      apply List.filter_congr
      intro e _
      by_cases hen : e.1 = n
      · simp [walkKeeps, hen, hempty]
      · simp [walkKeeps, hen]
    · simp only [hempty, Bool.false_eq_true, if_false]
      refine ⟨(ih _ _).1, ?_⟩
      rw [(ih _ _).2]
      simp only [Fs.mk.injEq]
      congr 1
      funext l
      apply List.filter_congr
      intro e _
      by_cases hen : e.1 = n
      · simp [walkKeeps, hen, hempty]
      · simp [walkKeeps, hen]


theorem mem_readDirNames (fs : Fs) (name : String) :
    name ∈ readDirNames fs ↔ name ∈ fs.files.map Prod.fst := by
  unfold readDirNames
  exact List.mem_insertionSort _

/-- The sweep of `dropObsoleteFiles` when neither a query nor a removal fails:
the entries without a row are gone, the others are as they were, and no error is
returned. -/
theorem Storage.dropObsoleteFiles_noFault (index : Storage) (env : Env)
    (hquery : ∀ id, env.query id = none) (hremove : ∀ p, env.remove p = none) :
    (index.dropObsoleteFiles env).1 =
        { index with fs := index.fs.keepRecorded index.database } ∧
      (index.dropObsoleteFiles env).2.2 = none := by
  unfold Storage.dropObsoleteFiles Walk Fs.keepRecorded
  cases hroot : index.fs.root with
  | none =>
    have hfs : index.fs = { root := none } := by
      cases hf : index.fs
      simp_all
    simp [Storage.walkFn, hfs]
  | some files =>
    have hstep : index.walkFn env index.storagePath index.storagePath (index.fs, 0) =
        ((index.fs, 0), none) := by
      simp [Storage.walkFn]
    simp only [hstep]
    have hwalk := walkNames_noFault index env hquery hremove (readDirNames index.fs) index.fs 0
    obtain ⟨herr, hfs⟩ := hwalk
    refine ⟨?_, herr⟩
    simp only [hfs, hroot, Option.map_some']
    congr 3
    apply List.filter_congr
    intro e he
    have hmem : e.1 ∈ readDirNames index.fs := by
      rw [mem_readDirNames]
      simp only [Fs.files, hroot, Option.getD_some]
      exact List.mem_map_of_mem Prod.fst he
    simp [walkKeeps, Table.hasRecord, hmem]

/-- The sweep of `dropOldEntries` when the transaction goes through. -/
theorem Storage.dropOldEntries_noFault (index : Storage) (env : Env)
    (hbegin : env.begin = none) (hprepare : env.prepare = none) (hexec : env.exec = none)
    (hcommit : env.commit = none) :
    (index.dropOldEntries env).1 =
        { index with database := Table.deleteExpiredBefore index.database index.time } ∧
      (index.dropOldEntries env).2.2.2 = none := by
  simp [Storage.dropOldEntries, hbegin, hprepare, hexec, hcommit]

/-- The state after `CollectGarbage` when no store operation fails. -/
theorem Storage.CollectGarbage_noFault (index : Storage) (env : Env) (h : env.NoStoreFault) :
    index.CollectGarbage env =
      ({ index with
          database := Table.deleteExpiredBefore index.database index.time,
          fs := index.fs.keepRecorded (Table.deleteExpiredBefore index.database index.time) },
        none) := by
  have hold := Storage.dropOldEntries_noFault index env h.begin h.prepare h.exec h.commit
  have hobs := Storage.dropObsoleteFiles_noFault (index.dropOldEntries env).1 env h.query h.remove
  unfold Storage.CollectGarbage
  rw [Prod.ext_iff]
  refine ⟨?_, hobs.2⟩
  show ((index.dropOldEntries env).1.dropObsoleteFiles env).1 = _
  rw [hobs.1, hold.1]

theorem Env.ok_noStoreFault (id : String) : (Env.ok id).NoStoreFault :=
  ⟨rfl, rfl, rfl, fun _ => rfl, rfl, rfl, rfl, rfl, rfl, rfl, fun _ => rfl⟩

theorem Table.deleteExpiredBefore_eq (t : Table) (now : Int) :
    Table.deleteExpiredBefore t now = t.filter (fun r => decide (now ≤ r.expires)) := by
  unfold Table.deleteExpiredBefore
  apply List.filter_congr
  intro r _
  by_cases h : r.expires < now
  · simp [h, not_le.2 h]
  · simp [h, not_lt.1 h]

theorem Table.hasRecord_deleteExpiredBefore (t : Table) (now : Int) (name : String) :
    Table.hasRecord (Table.deleteExpiredBefore t now) name =
      t.any (fun r => r.uuid == name && decide (now ≤ r.expires)) := by
  rw [Bool.eq_iff_iff]
  simp only [Table.hasRecord, Table.select, Table.deleteExpiredBefore, List.filter_filter,
    Bool.not_eq_true', List.isEmpty_eq_false, List.any_eq_true, Bool.and_eq_true, beq_iff_eq,
    decide_eq_true_eq, ne_eq, List.filter_eq_nil_iff, Bool.not_eq_true', not_forall]
  constructor
  · rintro ⟨r, hr, hp⟩
    refine ⟨r, hr, ?_⟩
    simpa [and_comm] using hp
  · rintro ⟨r, hr, hp⟩
    refine ⟨r, hr, ?_⟩
    simpa [and_comm] using hp

theorem Fs.files_keepRecorded (fs : Fs) (t : Table) :
    (fs.keepRecorded t).files = fs.files.filter (fun e => Table.hasRecord t e.1) := by
  unfold Fs.keepRecorded Fs.files
  cases fs.root <;> simp

/-- The rows after a collection in which no store operation fails. -/
theorem Storage.mem_database_CollectGarbage (index : Storage) (env : Env)
    (h : env.NoStoreFault) (r : Row) :
    r ∈ (index.CollectGarbage env).1.database ↔ r ∈ index.database ∧ index.time ≤ r.expires := by
  rw [Storage.CollectGarbage_noFault index env h, Table.deleteExpiredBefore_eq]
  simp

/-- The entries under the root after a collection in which no store operation
fails. -/
theorem Storage.mem_files_CollectGarbage (index : Storage) (env : Env)
    (h : env.NoStoreFault) (name : String) (content : List Byte) :
    (name, content) ∈ (index.CollectGarbage env).1.fs.files ↔
      (name, content) ∈ index.fs.files ∧
        ∃ r ∈ index.database, r.uuid = name ∧ index.time ≤ r.expires := by
  rw [Storage.CollectGarbage_noFault index env h]
  simp only [Fs.files_keepRecorded, List.mem_filter, Table.hasRecord_deleteExpiredBefore,
    List.any_eq_true, Bool.and_eq_true, beq_iff_eq, decide_eq_true_eq]

/-- The expired-record sweep never touches the blob store, the root path or the
clock. -/
theorem Storage.dropOldEntries_frame (index : Storage) (env : Env) :
    (index.dropOldEntries env).1.fs = index.fs ∧
      (index.dropOldEntries env).1.storagePath = index.storagePath ∧
      (index.dropOldEntries env).1.time = index.time := by
  unfold Storage.dropOldEntries
  cases env.begin <;> cases env.prepare <;> cases env.exec <;> cases env.commit <;>
    exact ⟨rfl, rfl, rfl⟩

/-- The expired-record sweep returns an error exactly when beginning the
transaction, preparing or executing the delete, or committing fails, and that
error is the first of these. -/
theorem Storage.dropOldEntries_error_iff (index : Storage) (env : Env) (e : Error) :
    (index.dropOldEntries env).2.2.2 = some e ↔
      env.begin = some e ∨
        (env.begin = none ∧ env.prepare = some e) ∨
        (env.begin = none ∧ env.prepare = none ∧ env.exec = some e) ∨
        (env.begin = none ∧ env.prepare = none ∧ env.exec = none ∧ env.commit = some e) := by
  unfold Storage.dropOldEntries
  cases env.begin <;> cases env.prepare <;> cases env.exec <;> cases env.commit <;> simp

/-- A failed expired-record sweep leaves the whole state as it was. -/
theorem Storage.dropOldEntries_failed (index : Storage) (env : Env) (e : Error)
    (hfail : (index.dropOldEntries env).2.2.2 = some e) :
    (index.dropOldEntries env).1 = index := by
  unfold Storage.dropOldEntries at hfail ⊢
  cases hb : env.begin <;> cases hp : env.prepare <;> cases hx : env.exec <;>
    cases hc : env.commit <;> simp_all

/-- The result of `CollectGarbage` in terms of its two sweeps. -/
theorem Storage.CollectGarbage_eq (index : Storage) (env : Env) :
    index.CollectGarbage env =
      (((index.dropOldEntries env).1.dropObsoleteFiles env).1,
        ((index.dropOldEntries env).1.dropObsoleteFiles env).2.2) := rfl

/-- One call of `walkFn` on an entry when its query succeeds and, if it has no
row, its removal succeeds. -/
theorem Storage.walkFn_ok (index : Storage) (env : Env) (n : String) (fs : Fs) (k : Nat)
    (hquery : env.query n = none)
    (hremove : (Table.select index.database n).isEmpty = true →
      env.remove (filepathJoin index.storagePath n) = none) :
    index.walkFn env (filepathJoin index.storagePath n) n (fs, k) =
      if (Table.select index.database n).isEmpty = true then
        (({ root := fs.root.map (List.filter (fun e => !(e.1 == n))) }, k + 1), none)
      else ((fs, k), none) := by
  unfold Storage.walkFn
  simp only [filepathJoin_ne_dir, if_false, hquery]
  by_cases hempty : (Table.select index.database n).isEmpty = true
  · simp only [hempty, if_true, hremove hempty, Fs.Remove]
    have hp : (fun e : String × List Byte =>
        !(filepathJoin index.storagePath e.1 == filepathJoin index.storagePath n)) =
        (fun e => !(e.1 == n)) := by
      funext e
      congr 1
      rw [Bool.eq_iff_iff]
      simp [filepathJoin_inj]
    rw [hp]
  · simp only [hempty, Bool.false_eq_true, if_false]

/-- One call of `walkFn` on an entry whose query fails, or which has no row and
whose removal fails: the state is untouched and the error is returned. -/
theorem Storage.walkFn_failed (index : Storage) (env : Env) (x : String) (e : Error)
    (st : Fs × Nat)
    (hfail : env.query x = some e ∨
      (env.query x = none ∧ (Table.select index.database x).isEmpty = true ∧
        env.remove (filepathJoin index.storagePath x) = some e)) :
    index.walkFn env (filepathJoin index.storagePath x) x st = (st, some e) := by
  unfold Storage.walkFn
  simp only [filepathJoin_ne_dir, if_false]
  rcases hfail with hq | ⟨hq, hempty, hr⟩
  · simp only [hq]
  · simp only [hq, hempty, if_true, hr, Fs.Remove]

/-- The walk over `visited ++ rest` when no call fails on `visited`: the entries
of `visited` without a row are gone, and the walk goes on with `rest`. -/
theorem walkNames_append (index : Storage) (env : Env) (visited rest : List String)
    (hquery : ∀ n ∈ visited, env.query n = none)
    (hremove : ∀ n ∈ visited, (Table.select index.database n).isEmpty = true →
      env.remove (filepathJoin index.storagePath n) = none)
    (fs : Fs) (k : Nat) :
    ∃ k1, walkNames index.storagePath (index.walkFn env) (visited ++ rest) (fs, k) =
      walkNames index.storagePath (index.walkFn env) rest
        ({ root := fs.root.map (List.filter (walkKeeps index.database visited)) }, k1) := by
  induction visited generalizing fs k with
  | nil =>
    refine ⟨k, ?_⟩
    have hid : (walkKeeps index.database []) = fun _ => true := by
      funext e
      simp [walkKeeps]
    have hfilter : (List.filter fun _ : String × List Byte => true) = id := by
      funext l
      simp
    simp [hid, hfilter]
  | cons n ns ih =>
    have hq := hquery n (List.mem_cons_self n ns)
    have hr := hremove n (List.mem_cons_self n ns)
    have hqs : ∀ m ∈ ns, env.query m = none := fun m hm => hquery m (List.mem_cons_of_mem n hm)
    have hrs : ∀ m ∈ ns, (Table.select index.database m).isEmpty = true →
        env.remove (filepathJoin index.storagePath m) = none :=
      fun m hm => hremove m (List.mem_cons_of_mem n hm)
    rw [List.cons_append, walkNames_cons, Storage.walkFn_ok index env n fs k hq hr]
    by_cases hempty : (Table.select index.database n).isEmpty = true
    · simp only [hempty, if_true]
      obtain ⟨k1, hk1⟩ := ih hqs hrs
        { root := fs.root.map (List.filter (fun e => !(e.1 == n))) } (k + 1)
      refine ⟨k1, ?_⟩
      rw [hk1]
      congr 2
      simp only [Option.map_map, Fs.mk.injEq]
      congr 1
      funext l
      simp only [Function.comp, List.filter_filter]
      apply List.filter_congr
      intro e _
      by_cases hen : e.1 = n
      · simp [walkKeeps, hen, hempty]
      · simp [walkKeeps, hen]
    · simp only [hempty, Bool.false_eq_true, if_false]
      obtain ⟨k1, hk1⟩ := ih hqs hrs fs k
      refine ⟨k1, ?_⟩
      rw [hk1]
      congr 2
      simp only [Fs.mk.injEq]
      congr 1
      funext l
      apply List.filter_congr
      intro e _
      by_cases hen : e.1 = n
      · simp [walkKeeps, hen, hempty]
      · simp [walkKeeps, hen]

/-- The orphaned-blob sweep when the first failing call is on the entry `x`: the
entries visited before `x` that have no row are gone, everything else is in
place, and the error is returned. -/
theorem Storage.dropObsoleteFiles_failed (index : Storage) (env : Env) (e : Error)
    (visited rest : List String) (x : String)
    (hnames : readDirNames index.fs = visited ++ x :: rest)
    (hquery : ∀ n ∈ visited, env.query n = none)
    (hremove : ∀ n ∈ visited, (Table.select index.database n).isEmpty = true →
      env.remove (filepathJoin index.storagePath n) = none)
    (hfail : env.query x = some e ∨
      (env.query x = none ∧ (Table.select index.database x).isEmpty = true ∧
        env.remove (filepathJoin index.storagePath x) = some e)) :
    (index.dropObsoleteFiles env).2.2 = some e ∧
      (index.dropObsoleteFiles env).1 =
        { index with fs :=
          { root := index.fs.root.map (List.filter (walkKeeps index.database visited)) } } := by
  unfold Storage.dropObsoleteFiles Walk
  cases hroot : index.fs.root with
  | none =>
    have hnil : readDirNames index.fs = [] := by
      simp [readDirNames, Fs.files, hroot]
    rw [hnil] at hnames
    simp at hnames
  | some files =>
    have hstep : index.walkFn env index.storagePath index.storagePath (index.fs, 0) =
        ((index.fs, 0), none) := by
      simp [Storage.walkFn]
    simp only [hstep, hnames]
    obtain ⟨k1, hk1⟩ := walkNames_append index env visited (x :: rest) hquery hremove index.fs 0
    rw [hk1, walkNames_cons, Storage.walkFn_failed index env x e _ hfail]
    simp [hroot]

/-- The walk of `strings.Fields` yields no field exactly when no field is under
way and only white space is left. -/
theorem fieldsAux_eq_nil_iff (cs cur : List Char) :
    fieldsAux cs cur = [] ↔ cur = [] ∧ ∀ c ∈ cs, isSpace c = true := by
  induction cs generalizing cur with
  | nil =>
    cases cur <;> simp [fieldsAux]
  | cons c cs ih =>
    by_cases hc : isSpace c = true
    · cases cur with
      | nil => simp [fieldsAux, hc, ih]
      | cons d ds => simp [fieldsAux, hc]
    · simp [fieldsAux, hc, ih]

/-- Without overflow the expiration of an upload with a lifetime that is not
negative is not before the clock value. -/
theorem int64Add_ge_of_fits (now lifetime : Int) (hnow : -2 ^ 63 ≤ now) (hlifetime : 0 ≤ lifetime)
    (hfits : now + lifetime < 2 ^ 63) : now ≤ int64Add now lifetime := by
  unfold int64Add toInt64
  omega

/-- The `int64` sum is the integer sum whenever that fits in an `int64`. -/
theorem int64Add_eq_of_fits (a b : Int) (hlo : -2 ^ 63 ≤ a + b) (hhi : a + b < 2 ^ 63) :
    int64Add a b = a + b := by
  unfold int64Add toInt64
  omega

theorem Fs.filter_removed_nil (fs : Fs) :
    ({ root := fs.root.map
        (List.filter (fun e : String × List Byte => !decide (e.1 ∈ ([] : List String)))) } : Fs) =
      fs := by
  cases fs with
  | mk root => cases root <;> simp

/-- Whatever fails during the walk, the entries it takes away all lack a row, and
every other entry is left as it was. -/
theorem walkNames_removed (index : Storage) (env : Env) (names : List String) (fs : Fs)
    (k : Nat) :
    ∃ removed : List String,
      (∀ n ∈ removed, (Table.select index.database n).isEmpty = true) ∧
        (walkNames index.storagePath (index.walkFn env) names (fs, k)).1.1 =
          { root := fs.root.map (List.filter (fun e => !decide (e.1 ∈ removed))) } := by
  induction names generalizing fs k with
  | nil =>
    exact ⟨[], by simp, (Fs.filter_removed_nil fs).symm⟩
  | cons n ns ih =>
    have hstop : ∀ e : Error,
        ∃ removed : List String,
          (∀ m ∈ removed, (Table.select index.database m).isEmpty = true) ∧
            (((fs, k), some e) : (Fs × Nat) × Option Error).1.1 =
              { root := fs.root.map (List.filter (fun e => !decide (e.1 ∈ removed))) } := by
      intro e
      exact ⟨[], by simp, (Fs.filter_removed_nil fs).symm⟩
    rw [walkNames_cons]
    cases hq : env.query n with
    | some e =>
      have hstep : index.walkFn env (filepathJoin index.storagePath n) n (fs, k) =
          ((fs, k), some e) := Storage.walkFn_failed index env n e (fs, k) (Or.inl hq)
      rw [hstep]
      exact hstop e
    | none =>
      by_cases hempty : (Table.select index.database n).isEmpty = true
      · cases hr : env.remove (filepathJoin index.storagePath n) with
        | some e =>
          have hstep : index.walkFn env (filepathJoin index.storagePath n) n (fs, k) =
              ((fs, k), some e) :=
            Storage.walkFn_failed index env n e (fs, k) (Or.inr ⟨hq, hempty, hr⟩)
          rw [hstep]
          exact hstop e
        | none =>
          rw [Storage.walkFn_ok index env n fs k hq (fun _ => hr)]
          simp only [hempty, if_true]
          obtain ⟨removed, hrem, hfs⟩ :=
            ih { root := fs.root.map (List.filter (fun e => !(e.1 == n))) } (k + 1)
          refine ⟨n :: removed, ?_, ?_⟩
          · intro m hm
            rcases List.mem_cons.1 hm with hmn | hmr
            · rw [hmn]
              exact hempty
            · exact hrem m hmr
          · rw [hfs]
            simp only [Option.map_map, Fs.mk.injEq]
            congr 1
            funext l
            simp only [Function.comp, List.filter_filter]
            apply List.filter_congr
            intro e _
            by_cases hen : e.1 = n
            · simp [hen]
            · simp [hen]
      · rw [Storage.walkFn_ok index env n fs k hq (fun h => absurd h hempty)]
        simp only [hempty, Bool.false_eq_true, if_false]
        exact ih fs k

/-- The orphaned-blob sweep never touches the table, and whatever fails during
it, it removes no entry that has a row. -/
theorem Storage.dropObsoleteFiles_keeps (index : Storage) (env : Env) :
    (index.dropObsoleteFiles env).1.database = index.database ∧
      ∀ en ∈ index.fs.files, Table.hasRecord index.database en.1 = true →
        en ∈ (index.dropObsoleteFiles env).1.fs.files := by
  unfold Storage.dropObsoleteFiles Walk
  have hstep : index.walkFn env index.storagePath index.storagePath (index.fs, 0) =
      ((index.fs, 0), none) := by
    simp [Storage.walkFn]
  cases hroot : index.fs.root with
  | none =>
    refine ⟨by simp only [hstep], ?_⟩
    intro en hen
    simp [Fs.files, hroot] at hen
  | some files =>
    simp only [hstep]
    refine ⟨trivial, ?_⟩
    intro en hen hrec
    obtain ⟨removed, hrem, hfs⟩ := walkNames_removed index env (readDirNames index.fs) index.fs 0
    simp only [hfs, Fs.files, hroot, Option.map_some', Option.getD_some, List.mem_filter]
    simp only [Fs.files, hroot, Option.getD_some] at hen
    refine ⟨hen, ?_⟩
    have hnot : en.1 ∉ removed := by
      intro hmem
      have hempty := hrem en.1 hmem
      simp [Table.hasRecord, hempty] at hrec
    simp [hnot]

/-- The test `res.Next()` of the lookup succeeds exactly when a row has the name
as its uuid. -/
theorem Table.hasRecord_iff (t : Table) (name : String) :
    Table.hasRecord t name = true ↔ ∃ r ∈ t, r.uuid = name := by
  simp [Table.hasRecord, Table.select, List.filter_eq_nil_iff]

/-! ## Claims -/

/-- C1, the code at an overflowing sum: the upload of lifetime 9223372036854775807
at the clock value 1700000000 succeeds and returns `u1`, and `Get("u1")` returns a
descriptor with the uuid and the name of the upload whose `expires` is
-9223372035154775809, the wrapped `int64` sum, not `now + lifetime`. -/
theorem get_after_new_overflow :
    Storage.New ⟨[], ⟨some []⟩, "/tmp/files", 1700000000⟩ (Env.ok "u1") 9223372036854775807
        ⟨[1], none⟩ "file0" =
      (⟨[⟨"u1", -9223372035154775809, "file0"⟩], ⟨some [("u1", [1])]⟩, "/tmp/files",
          1700000000⟩, .ok "u1") ∧
      Storage.Get
          ⟨[⟨"u1", -9223372035154775809, "file0"⟩], ⟨some [("u1", [1])]⟩, "/tmp/files",
            1700000000⟩ (Env.ok "") "u1" =
        .ok { uuid := "u1", path := "/tmp/files/u1", expires := -9223372035154775809,
              name := "file0" } ∧
      (-9223372035154775809 : Int) ≠ 1700000000 + 9223372036854775807 := by
  refine ⟨rfl, rfl, by decide⟩

/-- C2, the code at a short write: the destination accepts two of the four bytes
of the content, `io.Copy` returns an error that `uploadNew` drops, and `New`
returns the identifier `u1` and no error; `Get("u1")` returns the descriptor with
path `storagePath/u1`, and the bytes stored at that path are the first two bytes,
not the content. -/
theorem roundtrip_short_write :
    ioCopy (some 2) ⟨[1, 2, 3, 4], none⟩ = ([1, 2], some (Error.other "short write")) ∧
      Storage.New ⟨[], ⟨some []⟩, "/tmp/files", 0⟩ { Env.ok "u1" with writeLimit := some 2 } 60
          ⟨[1, 2, 3, 4], none⟩ "file0" =
        (⟨[⟨"u1", 60, "file0"⟩], ⟨some [("u1", [1, 2])]⟩, "/tmp/files", 0⟩, .ok "u1") ∧
      Storage.Get ⟨[⟨"u1", 60, "file0"⟩], ⟨some [("u1", [1, 2])]⟩, "/tmp/files", 0⟩ (Env.ok "")
          "u1" =
        .ok { uuid := "u1", path := "/tmp/files/u1", expires := 60, name := "file0" } ∧
      Fs.ReadFile ⟨some [("u1", [1, 2])]⟩ "/tmp/files" "/tmp/files/u1" = some [1, 2] ∧
      (some [1, 2] : Option (List Byte)) ≠ some [1, 2, 3, 4] := by
  refine ⟨rfl, rfl, rfl, by decide, by decide⟩

/-- C3: when the record-store query succeeds, `Get(id)` fails with
`os.ErrNotExist` exactly when no row has the uuid `id`; when a row has it (the
uuid being the key of the table), `Get` returns the descriptor of that row,
whatever its expiration; and `Get` does not read the clock at all, so the result
is the same at every clock value. -/
theorem get_not_found_iff (index : Storage) (env : Env) (id : String)
    (hquery : env.query id = none) :
    (index.Get env id = .error Error.ErrNotExist ↔ ∀ r ∈ index.database, r.uuid ≠ id) ∧
      (∀ r ∈ index.database, r.uuid = id → (index.database.map Row.uuid).Nodup →
        index.Get env id =
          .ok { uuid := id, path := filepathJoin index.storagePath id,
                expires := r.expires, name := r.name }) ∧
      (∀ t, Storage.Get { index with time := t } env id = index.Get env id) := by
  refine ⟨?_, ?_, fun _ => rfl⟩
  · rw [← Table.select_eq_nil_iff]
    unfold Storage.Get
    rw [hquery]
    cases hsel : Table.select index.database id with
    | nil => simp
    | cons r rest => simp
  · intro r hmem hid hkey
    subst hid
    have hsel := Table.select_of_mem hmem hkey
    simp [Storage.Get, hquery, hsel]

/-- Witness for C3: at clock 100 the row that expired at 5 is still returned, and
an identifier without a row gives `os.ErrNotExist` (as in `TestNonExistentFile`). -/
theorem get_not_found_iff_witness :
    Storage.Get ⟨[⟨"u1", 5, "file1"⟩], ⟨some []⟩, "/tmp/files", 100⟩ (Env.ok "") "u1" =
        .ok { uuid := "u1", path := "/tmp/files/u1", expires := 5, name := "file1" } ∧
      Storage.Get ⟨[⟨"u1", 5, "file1"⟩], ⟨some []⟩, "/tmp/files", 100⟩ (Env.ok "") "SomeUUID" =
        .error Error.ErrNotExist :=
  ⟨(get_not_found_iff ⟨[⟨"u1", 5, "file1"⟩], ⟨some []⟩, "/tmp/files", 100⟩ (Env.ok "") "u1"
      rfl).2.1 ⟨"u1", 5, "file1"⟩ (by decide) rfl (by decide),
    (get_not_found_iff ⟨[⟨"u1", 5, "file1"⟩], ⟨some []⟩, "/tmp/files", 100⟩ (Env.ok "")
      "SomeUUID" rfl).1.2 (by decide)⟩

/-- C4: after a `CollectGarbage()` in which no store operation fails, the table
holds exactly the rows it held before whose expiration is at least the clock
value, unchanged and in their order: a row with `expires < now` is removed, a row
with `expires = now` is kept; and `Count()` afterwards is the number of kept
rows. -/
theorem collect_records (index : Storage) (env : Env) (h : env.NoStoreFault) :
    (index.CollectGarbage env).1.database =
        index.database.filter (fun r => decide (index.time ≤ r.expires)) ∧
      (∀ r, r ∈ (index.CollectGarbage env).1.database ↔
        r ∈ index.database ∧ index.time ≤ r.expires) ∧
      (Storage.Count (index.CollectGarbage env).1 env).1 =
        ((index.database.filter (fun r => decide (index.time ≤ r.expires))).length : Int) := by
  have hdb : (index.CollectGarbage env).1.database =
      index.database.filter (fun r => decide (index.time ≤ r.expires)) := by
    rw [Storage.CollectGarbage_noFault index env h, Table.deleteExpiredBefore_eq]
  refine ⟨hdb, ?_, ?_⟩
  · intro r
    rw [hdb]
    simp
  · simp [Storage.Count, h.queryCount, h.scanCount, hdb]

/-- Witness for C4: a file uploaded at clock 0 with lifetime 10 expires at 10; a
collection at clock 10 keeps the row, a collection at clock 11 removes it. -/
theorem collect_records_witness :
    (Storage.New ⟨[], ⟨some []⟩, "/tmp/files", 0⟩ (Env.ok "u1") 10 ⟨[5], none⟩ "file0").1 =
        ⟨[⟨"u1", 10, "file0"⟩], ⟨some [("u1", [5])]⟩, "/tmp/files", 0⟩ ∧
      (Storage.CollectGarbage ⟨[⟨"u1", 10, "file0"⟩], ⟨some [("u1", [5])]⟩, "/tmp/files", 10⟩
        (Env.ok "")).1.database = [⟨"u1", 10, "file0"⟩] ∧
      (Storage.CollectGarbage ⟨[⟨"u1", 10, "file0"⟩], ⟨some [("u1", [5])]⟩, "/tmp/files", 11⟩
        (Env.ok "")).1.database = [] :=
  ⟨rfl,
    (collect_records ⟨[⟨"u1", 10, "file0"⟩], ⟨some [("u1", [5])]⟩, "/tmp/files", 10⟩
      (Env.ok "") (Env.ok_noStoreFault "")).1,
    (collect_records ⟨[⟨"u1", 10, "file0"⟩], ⟨some [("u1", [5])]⟩, "/tmp/files", 11⟩
      (Env.ok "") (Env.ok_noStoreFault "")).1⟩

/-- C5: after a `CollectGarbage()` in which no store operation fails, the entries
under the storage root are exactly the entries present before whose name is the
uuid of a row with expiration at least the clock value, each with its bytes
unchanged: an entry without a row is removed, an entry whose row expired in this
pass is removed in the same pass, an entry whose row stays is untouched.  (The
blob store of the model holds only entries directly under the root.) -/
theorem collect_blobs (index : Storage) (env : Env) (h : env.NoStoreFault) :
    (index.CollectGarbage env).1.fs.files =
        index.fs.files.filter (fun e =>
          index.database.any (fun r => r.uuid == e.1 && decide (index.time ≤ r.expires))) ∧
      (∀ name content, (name, content) ∈ (index.CollectGarbage env).1.fs.files ↔
        (name, content) ∈ index.fs.files ∧
          ∃ r ∈ index.database, r.uuid = name ∧ index.time ≤ r.expires) ∧
      (index.CollectGarbage env).1.fs.root.isSome = index.fs.root.isSome := by
  have hfs : (index.CollectGarbage env).1.fs.files =
      index.fs.files.filter (fun e =>
        index.database.any (fun r => r.uuid == e.1 && decide (index.time ≤ r.expires))) := by
    rw [Storage.CollectGarbage_noFault index env h]
    simp only [Fs.files_keepRecorded]
    apply List.filter_congr
    intro e _
    exact Table.hasRecord_deleteExpiredBefore index.database index.time e.1
  refine ⟨hfs, ?_, ?_⟩
  · intro name content
    rw [hfs]
    simp
  · rw [Storage.CollectGarbage_noFault index env h]
    simp [Fs.keepRecorded]

/-- Witness for C5: four files uploaded at clocks 0, 1, 2, 3 with lifetimes 10,
20, 30, 40, and a stray file `zz` without a row; the collection at clock 15
removes the blob of the first file and the stray file, and keeps the others. -/
theorem collect_blobs_witness :
    (Storage.CollectGarbage
        ⟨[⟨"u0", 10, "file0"⟩, ⟨"u1", 21, "file1"⟩, ⟨"u2", 32, "file2"⟩, ⟨"u3", 43, "file3"⟩],
          ⟨some [("u0", [1, 2, 3, 4]), ("u1", []), ("zz", [7]),
            ("u2", [200, 100, 64, 65, 88, 0, 1, 5]), ("u3", [5])]⟩, "/tmp/files", 15⟩
        (Env.ok "")).1.fs.files =
      [("u1", []), ("u2", [200, 100, 64, 65, 88, 0, 1, 5]), ("u3", [5])] :=
  (collect_blobs
    ⟨[⟨"u0", 10, "file0"⟩, ⟨"u1", 21, "file1"⟩, ⟨"u2", 32, "file2"⟩, ⟨"u3", 43, "file3"⟩],
      ⟨some [("u0", [1, 2, 3, 4]), ("u1", []), ("zz", [7]),
        ("u2", [200, 100, 64, 65, 88, 0, 1, 5]), ("u3", [5])]⟩, "/tmp/files", 15⟩
    (Env.ok "") (Env.ok_noStoreFault "")).1

/-- C6: with the clock fixed and no store operation failing, a second
`CollectGarbage()` right after the first leaves the whole state as the first left
it: the same rows (hence the same `Count()`) and the same entries under the root,
and it returns no error. -/
theorem collect_idempotent (index : Storage) (env env1 : Env) (h : env.NoStoreFault)
    (h1 : env1.NoStoreFault) :
    Storage.CollectGarbage (index.CollectGarbage env).1 env1 =
        ((index.CollectGarbage env).1, none) ∧
      (Storage.Count (Storage.CollectGarbage (index.CollectGarbage env).1 env1).1 env1).1 =
        (Storage.Count (index.CollectGarbage env).1 env1).1 := by
  have hstate : Storage.CollectGarbage (index.CollectGarbage env).1 env1 =
      ((index.CollectGarbage env).1, none) := by
    rw [Storage.CollectGarbage_noFault _ env1 h1, Storage.CollectGarbage_noFault index env h]
    have hdb : Table.deleteExpiredBefore (Table.deleteExpiredBefore index.database index.time)
        index.time = Table.deleteExpiredBefore index.database index.time := by
      simp [Table.deleteExpiredBefore, List.filter_filter]
    simp only [hdb]
    have hfs : (index.fs.keepRecorded (Table.deleteExpiredBefore index.database index.time)).keepRecorded
        (Table.deleteExpiredBefore index.database index.time) =
        index.fs.keepRecorded (Table.deleteExpiredBefore index.database index.time) := by
      unfold Fs.keepRecorded
      cases index.fs.root <;> simp [List.filter_filter]
    rw [hfs]
  exact ⟨hstate, by rw [hstate]⟩

/-- Witness for C6: the state of the witness of C5, collected twice at clock 15. -/
theorem collect_idempotent_witness :
    Storage.CollectGarbage
        (Storage.CollectGarbage
          ⟨[⟨"u0", 10, "file0"⟩, ⟨"u1", 21, "file1"⟩], ⟨some [("u0", [1]), ("u1", []), ("zz", [7])]⟩,
            "/tmp/files", 15⟩ (Env.ok "")).1 (Env.ok "") =
      (⟨[⟨"u1", 21, "file1"⟩], ⟨some [("u1", [])]⟩, "/tmp/files", 15⟩, none) :=
  (collect_idempotent
    ⟨[⟨"u0", 10, "file0"⟩, ⟨"u1", 21, "file1"⟩], ⟨some [("u0", [1]), ("u1", []), ("zz", [7])]⟩,
      "/tmp/files", 15⟩ (Env.ok "") (Env.ok "") (Env.ok_noStoreFault "")
    (Env.ok_noStoreFault "")).1

/-- C7: every successful `New` increases `Count()` by exactly one, whatever the
lifetime (a negative one included, which gives a row that is already expired);
`Count()` is the number of rows of the table, whatever their expiration. -/
theorem count_after_new (index index1 : Storage) (env env1 : Env) (lifetime : Int)
    (source : Reader) (name id : String)
    (hnew : index.New env lifetime source name = (index1, .ok id))
    (hquery : env1.queryCount = none) (hscan : env1.scanCount = none) :
    index1.Count env1 = ((index.Count env1).1 + 1, none) ∧
      index.Count env1 = ((index.database.length : Int), none) := by
  obtain ⟨_, _, database1, fs1, hins, _, hidx⟩ := Storage.New_ok hnew
  obtain ⟨_, _, hdb⟩ := Table.insert_ok hins
  subst hidx
  simp [Storage.Count, hquery, hscan, hdb]

/-- Witness for C7: four successful uploads on an empty store, the last one with
a negative lifetime, give `Count() = 4`. -/
theorem count_after_new_witness :
    Storage.Count
        (Storage.New
          (Storage.New
            (Storage.New
              (Storage.New ⟨[], ⟨some []⟩, "/tmp/files", 0⟩ (Env.ok "u0") 60
                ⟨[1, 2, 3, 4], none⟩ "file0").1
              (Env.ok "u1") 60 ⟨[], none⟩ "file1").1
            (Env.ok "u2") 60 ⟨[200, 100, 64, 65, 88, 0, 1, 5], none⟩ "file2").1
          (Env.ok "u3") (-60) ⟨[5], none⟩ "file3").1
        (Env.ok "") = (4, none) :=
  (count_after_new
    (Storage.New
      (Storage.New
        (Storage.New ⟨[], ⟨some []⟩, "/tmp/files", 0⟩ (Env.ok "u0") 60
          ⟨[1, 2, 3, 4], none⟩ "file0").1
        (Env.ok "u1") 60 ⟨[], none⟩ "file1").1
      (Env.ok "u2") 60 ⟨[200, 100, 64, 65, 88, 0, 1, 5], none⟩ "file2").1
    _ (Env.ok "u3") (Env.ok "") (-60) ⟨[5], none⟩ "file3" "u3" rfl rfl rfl).1

/-- C8, counterexample: `fs.OpenFile` fails, `New` returns that error, and the
row inserted before is still there: `Count()` goes from 0 to 1. -/
theorem count_after_failed_new_counterexample :
    (Storage.New ⟨[], ⟨some []⟩, "/tmp/files", 0⟩
        { Env.ok "u1" with openFile := some (Error.other "permission denied") } 60
        ⟨[1, 2, 3, 4], none⟩ "file0").2 = .error (Error.other "permission denied") ∧
      Storage.Count ⟨[], ⟨some []⟩, "/tmp/files", 0⟩ (Env.ok "") = (0, none) ∧
      Storage.Count
        (Storage.New ⟨[], ⟨some []⟩, "/tmp/files", 0⟩
          { Env.ok "u1" with openFile := some (Error.other "permission denied") } 60
          ⟨[1, 2, 3, 4], none⟩ "file0").1 (Env.ok "") = (1, none) := by
  refine ⟨rfl, rfl, rfl⟩

/-- C8, amended: when `New` returns an error `e`, either the error comes from
`uuid.NewRandom`, from preparing the statement or from the insert, and then the
whole state, `Count()` included, is as before; or the row was inserted and the
error comes from opening the blob, and then `Count()` is one more than before. -/
theorem count_after_failed_new (index : Storage) (env env1 : Env) (lifetime : Int)
    (source : Reader) (name : String) (e : Error)
    (hfail : (index.New env lifetime source name).2 = .error e)
    (hquery : env1.queryCount = none) (hscan : env1.scanCount = none) :
    ((env.newRandom = .error e ∨ env.prepare = some e ∨
          ∃ id, env.newRandom = .ok id ∧
            index.database.insert env.exec ⟨id, int64Add index.time lifetime, name⟩ = .error e) ∧
        (index.New env lifetime source name).1 = index ∧
        Storage.Count (index.New env lifetime source name).1 env1 = index.Count env1) ∨
      (∃ id database1, env.newRandom = .ok id ∧ env.prepare = none ∧
        index.database.insert env.exec ⟨id, int64Add index.time lifetime, name⟩ = .ok database1 ∧
        index.fs.OpenFile env.openFile id = .error e ∧
        (index.New env lifetime source name).1 = { index with database := database1 } ∧
        Storage.Count (index.New env lifetime source name).1 env1 =
          ((index.Count env1).1 + 1, none)) := by
  cases hr : env.newRandom with
  | error e1 =>
    have hnew : index.New env lifetime source name = (index, .error e1) := by
      simp [Storage.New, Storage.uploadNew, hr]
    rw [hnew] at hfail ⊢
    have he : e1 = e := Except.error.inj hfail
    subst he
    exact Or.inl ⟨Or.inl rfl, rfl, rfl⟩
  | ok id1 =>
    cases hp : env.prepare with
    | some e1 =>
      have hnew : index.New env lifetime source name = (index, .error e1) := by
        simp [Storage.New, Storage.uploadNew, hr, hp]
      rw [hnew] at hfail ⊢
      have he : e1 = e := Except.error.inj hfail
      subst he
      exact Or.inl ⟨Or.inr (Or.inl rfl), rfl, rfl⟩
    | none =>
      cases hi : index.database.insert env.exec ⟨id1, int64Add index.time lifetime, name⟩ with
      | error e1 =>
        have hnew : index.New env lifetime source name = (index, .error e1) := by
          simp [Storage.New, Storage.uploadNew, hr, hp, hi]
        rw [hnew] at hfail ⊢
        have he : e1 = e := Except.error.inj hfail
        subst he
        exact Or.inl ⟨Or.inr (Or.inr ⟨id1, rfl, hi⟩), rfl, rfl⟩
      | ok database1 =>
        cases ho : index.fs.OpenFile env.openFile id1 with
        | error e1 =>
          have hnew : index.New env lifetime source name =
              ({ index with database := database1 }, .error e1) := by
            simp [Storage.New, Storage.uploadNew, hr, hp, hi, ho]
          rw [hnew] at hfail ⊢
          have he : e1 = e := Except.error.inj hfail
          subst he
          obtain ⟨_, _, hdb⟩ := Table.insert_ok hi
          refine Or.inr ⟨id1, database1, rfl, rfl, hi, ho, rfl, ?_⟩
          simp [Storage.Count, hquery, hscan, hdb]
        | ok fs1 =>
          have hnew : (index.New env lifetime source name).2 = .ok id1 := by
            simp [Storage.New, Storage.uploadNew, hr, hp, hi, ho]
          rw [hnew] at hfail
          cases hfail

/-- Witness for C8: the generated identifier collides with an existing row; `New`
returns the constraint error and `Count()` stays 1. -/
theorem count_after_failed_new_witness :
    (Storage.New ⟨[⟨"u1", 60, "file0"⟩], ⟨some [("u1", [1])]⟩, "/tmp/files", 5⟩ (Env.ok "u1")
        60 ⟨[2], none⟩ "file1").2 = .error Error.constraint ∧
      Storage.Count
        (Storage.New ⟨[⟨"u1", 60, "file0"⟩], ⟨some [("u1", [1])]⟩, "/tmp/files", 5⟩ (Env.ok "u1")
          60 ⟨[2], none⟩ "file1").1 (Env.ok "") = (1, none) :=
  ⟨rfl,
    (count_after_failed_new ⟨[⟨"u1", 60, "file0"⟩], ⟨some [("u1", [1])]⟩, "/tmp/files", 5⟩
      (Env.ok "u1") (Env.ok "") 60 ⟨[2], none⟩ "file1" Error.constraint rfl rfl rfl).elim
      (fun h => h.2.2) (fun _ => rfl)⟩

/-- C9, the code at a failing copy: the destination accepts two of four bytes, or
the reader breaks after two bytes; `io.Copy` returns an error in both cases, and
`New` returns the identifier `u1` and no error, leaving the partial blob. -/
theorem copy_failure_not_reported :
    ioCopy (some 2) ⟨[1, 2, 3, 4], none⟩ = ([1, 2], some (Error.other "short write")) ∧
      Storage.New ⟨[], ⟨some []⟩, "/tmp/files", 0⟩ { Env.ok "u1" with writeLimit := some 2 } 60
          ⟨[1, 2, 3, 4], none⟩ "file0" =
        (⟨[⟨"u1", 60, "file0"⟩], ⟨some [("u1", [1, 2])]⟩, "/tmp/files", 0⟩, .ok "u1") ∧
      ioCopy none ⟨[1, 2], some (Error.other "unexpected EOF")⟩ =
        ([1, 2], some (Error.other "unexpected EOF")) ∧
      Storage.New ⟨[], ⟨some []⟩, "/tmp/files", 0⟩ (Env.ok "u1") 60
          ⟨[1, 2], some (Error.other "unexpected EOF")⟩ "file0" =
        (⟨[⟨"u1", 60, "file0"⟩], ⟨some [("u1", [1, 2])]⟩, "/tmp/files", 0⟩, .ok "u1") := by
  refine ⟨rfl, rfl, rfl, rfl⟩

/-- C10: when the insert of an upload fails, because the driver reports an error
or because a row with the generated uuid exists, `New` returns an error and the
whole state is as before: no blob is created or modified, and the table, the row
with that uuid included, is unchanged.  With a working driver the error of a
collision is the constraint violation. -/
theorem new_insert_failure (index : Storage) (env : Env) (lifetime : Int) (source : Reader)
    (name id : String) (hid : env.newRandom = .ok id)
    (hfail : env.exec ≠ none ∨ ∃ r ∈ index.database, r.uuid = id) :
    ∃ e, index.New env lifetime source name = (index, .error e) ∧
      (env.prepare = none → env.exec = none → e = Error.constraint) := by
  unfold Storage.New Storage.uploadNew
  simp only [hid]
  cases hp : env.prepare with
  | some e1 => exact ⟨e1, rfl, fun h => by simp at h⟩
  | none =>
    cases hx : env.exec with
    | some e1 => exact ⟨e1, by simp [Table.insert], fun _ h => by simp at h⟩
    | none =>
      rcases hfail with hne | ⟨r, hr, hrid⟩
      · exact absurd hx hne
      · have hany : index.database.any (fun x => x.uuid == id) = true := by
          rw [List.any_eq_true]
          exact ⟨r, hr, by simp [hrid]⟩
        exact ⟨Error.constraint, by simp [Table.insert, hany], fun _ _ => rfl⟩

/-- Witness for C10: `uuid.NewRandom` yields the uuid of an existing row; `New`
returns the constraint error, the row keeps its expiration and name, and the blob
keeps its bytes. -/
theorem new_insert_failure_witness :
    Storage.New ⟨[⟨"u1", 60, "file0"⟩], ⟨some [("u1", [1])]⟩, "/tmp/files", 5⟩ (Env.ok "u1")
        70 ⟨[2, 3], none⟩ "file1" =
      (⟨[⟨"u1", 60, "file0"⟩], ⟨some [("u1", [1])]⟩, "/tmp/files", 5⟩,
        .error Error.constraint) := by
  obtain ⟨e, hnew, he⟩ :=
    new_insert_failure ⟨[⟨"u1", 60, "file0"⟩], ⟨some [("u1", [1])]⟩, "/tmp/files", 5⟩
      (Env.ok "u1") 70 ⟨[2, 3], none⟩ "file1" "u1" rfl
      (Or.inr ⟨⟨"u1", 60, "file0"⟩, by decide, rfl⟩)
  rw [← he rfl rfl]
  exact hnew

/-- C11, counterexample: an upload at clock 0 whose `fs.OpenFile` fails leaves the
row `u1` (expires 60) without a blob; a collection at clock 0 in which nothing
fails keeps the row and creates no blob, so the row is still without a blob. -/
theorem collect_repairs_counterexample :
    (Storage.New ⟨[], ⟨some []⟩, "/tmp/files", 0⟩
        { Env.ok "u1" with openFile := some (Error.other "permission denied") } 60
        ⟨[1, 2, 3, 4], none⟩ "file0").1 =
        ⟨[⟨"u1", 60, "file0"⟩], ⟨some []⟩, "/tmp/files", 0⟩ ∧
      Storage.CollectGarbage ⟨[⟨"u1", 60, "file0"⟩], ⟨some []⟩, "/tmp/files", 0⟩ (Env.ok "") =
        (⟨[⟨"u1", 60, "file0"⟩], ⟨some []⟩, "/tmp/files", 0⟩, none) ∧
      ¬ ∀ r ∈ (Storage.CollectGarbage ⟨[⟨"u1", 60, "file0"⟩], ⟨some []⟩, "/tmp/files", 0⟩
            (Env.ok "")).1.database,
          (0 : Int) ≤ r.expires →
            ∃ content, (r.uuid, content) ∈
              (Storage.CollectGarbage ⟨[⟨"u1", 60, "file0"⟩], ⟨some []⟩, "/tmp/files", 0⟩
                (Env.ok "")).1.fs.files := by
  refine ⟨rfl, rfl, ?_⟩
  intro hall
  obtain ⟨content, hmem⟩ := hall ⟨"u1", 60, "file0"⟩ (by decide) (by decide)
  have hfiles : (Storage.CollectGarbage ⟨[⟨"u1", 60, "file0"⟩], ⟨some []⟩, "/tmp/files", 0⟩
      (Env.ok "")).1.fs.files = [] := by decide
  rw [hfiles] at hmem
  cases hmem

/-- C11, amended: a collection in which no store operation fails neither creates
a blob nor removes a row that lacks one.  A row that remains (expiration at least
the clock value) has a blob under the root afterwards exactly when it had one
before, with the same bytes; and every entry that remains under the root has a
row. -/
theorem collect_keeps_blob_status (index : Storage) (env : Env) (h : env.NoStoreFault) :
    (∀ r ∈ (index.CollectGarbage env).1.database, ∀ content,
        (r.uuid, content) ∈ (index.CollectGarbage env).1.fs.files ↔
          (r.uuid, content) ∈ index.fs.files) ∧
      (∀ name content, (name, content) ∈ (index.CollectGarbage env).1.fs.files →
        ∃ r ∈ (index.CollectGarbage env).1.database, r.uuid = name) := by
  have hmem := Storage.mem_files_CollectGarbage index env h
  have hdb := Storage.mem_database_CollectGarbage index env h
  constructor
  · intro r hr content
    rw [hmem]
    constructor
    · exact fun hx => hx.1
    · intro hx
      exact ⟨hx, r, ((hdb r).1 hr).1, rfl, ((hdb r).1 hr).2⟩
  · intro name content hx
    obtain ⟨_, r, hr, hname, hexp⟩ := (hmem name content).1 hx
    exact ⟨r, (hdb r).2 ⟨hr, hexp⟩, hname⟩

/-- Witness for C11: the row `u0` has a blob and keeps it, the row `u1` has none
and still has none after the collection at clock 15. -/
theorem collect_keeps_blob_status_witness :
    ((("u0", [1, 2]) : String × List Byte) ∈
        (Storage.CollectGarbage
          ⟨[⟨"u0", 21, "file0"⟩, ⟨"u1", 32, "file1"⟩], ⟨some [("u0", [1, 2])]⟩, "/tmp/files", 15⟩
          (Env.ok "")).1.fs.files ↔
      (("u0", [1, 2]) : String × List Byte) ∈ [("u0", [1, 2])]) ∧
    ((("u1", []) : String × List Byte) ∈
        (Storage.CollectGarbage
          ⟨[⟨"u0", 21, "file0"⟩, ⟨"u1", 32, "file1"⟩], ⟨some [("u0", [1, 2])]⟩, "/tmp/files", 15⟩
          (Env.ok "")).1.fs.files ↔
      (("u1", []) : String × List Byte) ∈ [("u0", [1, 2])]) :=
  ⟨(collect_keeps_blob_status
      ⟨[⟨"u0", 21, "file0"⟩, ⟨"u1", 32, "file1"⟩], ⟨some [("u0", [1, 2])]⟩, "/tmp/files", 15⟩
      (Env.ok "") (Env.ok_noStoreFault "")).1 ⟨"u0", 21, "file0"⟩ (by decide) [1, 2],
    (collect_keeps_blob_status
      ⟨[⟨"u0", 21, "file0"⟩, ⟨"u1", 32, "file1"⟩], ⟨some [("u0", [1, 2])]⟩, "/tmp/files", 15⟩
      (Env.ok "") (Env.ok_noStoreFault "")).1 ⟨"u1", 32, "file1"⟩ (by decide) []⟩

/-- C12, counterexample: the database is closed, so `Begin` fails and so does the
lookup for the first entry of the walk; the blob sweep stops there and the stray
file `zz`, which has no row, stays under the root. -/
theorem collect_after_failed_sweep_counterexample :
    (Storage.dropOldEntries
        ⟨[⟨"u0", 10, "file0"⟩], ⟨some [("u0", [1]), ("zz", [7])]⟩, "/tmp/files", 15⟩
        { Env.ok "" with
          begin := some (Error.other "sql: database is closed"),
          query := fun _ => some (Error.other "sql: database is closed") }).2.2.2 =
        some (Error.other "sql: database is closed") ∧
      Storage.CollectGarbage
          ⟨[⟨"u0", 10, "file0"⟩], ⟨some [("u0", [1]), ("zz", [7])]⟩, "/tmp/files", 15⟩
          { Env.ok "" with
            begin := some (Error.other "sql: database is closed"),
            query := fun _ => some (Error.other "sql: database is closed") } =
        (⟨[⟨"u0", 10, "file0"⟩], ⟨some [("u0", [1]), ("zz", [7])]⟩, "/tmp/files", 15⟩,
          some (Error.other "sql: database is closed")) ∧
      (("zz", [7]) : String × List Byte) ∈
        (Storage.CollectGarbage
          ⟨[⟨"u0", 10, "file0"⟩], ⟨some [("u0", [1]), ("zz", [7])]⟩, "/tmp/files", 15⟩
          { Env.ok "" with
            begin := some (Error.other "sql: database is closed"),
            query := fun _ => some (Error.other "sql: database is closed") }).1.fs.files ∧
      ¬ ∃ r ∈ ([⟨"u0", 10, "file0"⟩] : Table), r.uuid = "zz" := by
  refine ⟨rfl, by decide, by decide, by decide⟩

/-- C12, amended: when the expired-record sweep fails (at `Begin`, at `Prepare`,
at `Exec` or at `Commit`), `CollectGarbage()` leaves the table as it was and still
runs the orphaned-blob sweep against it.  Whatever happens in that sweep, no entry
with a row is removed; and when its lookups and removals succeed, every entry
under the root without a row is removed and every entry with a row is kept, bytes
unchanged. -/
theorem collect_after_failed_sweep (index : Storage) (env : Env) (e : Error)
    (hfail : (index.dropOldEntries env).2.2.2 = some e) :
    (index.CollectGarbage env).1.database = index.database ∧
      (∀ en ∈ index.fs.files, (∃ r ∈ index.database, r.uuid = en.1) →
        en ∈ (index.CollectGarbage env).1.fs.files) ∧
      ((∀ id, env.query id = none) → (∀ p, env.remove p = none) →
        (index.CollectGarbage env).1.fs.files =
            index.fs.files.filter (fun en => index.database.any (fun r => r.uuid == en.1)) ∧
          ∀ name content, (name, content) ∈ (index.CollectGarbage env).1.fs.files ↔
            (name, content) ∈ index.fs.files ∧ ∃ r ∈ index.database, r.uuid = name) := by
  have hsame := Storage.dropOldEntries_failed index env e hfail
  have hkeeps := Storage.dropObsoleteFiles_keeps index env
  refine ⟨?_, ?_, ?_⟩
  · rw [Storage.CollectGarbage_eq, hsame]
    exact hkeeps.1
  · intro en hen hrow
    rw [Storage.CollectGarbage_eq, hsame]
    exact hkeeps.2 en hen ((Table.hasRecord_iff index.database en.1).2 hrow)
  · intro hquery hremove
    have hobs := Storage.dropObsoleteFiles_noFault index env hquery hremove
    have hstate : (index.CollectGarbage env).1 =
        { index with fs := index.fs.keepRecorded index.database } := by
      rw [Storage.CollectGarbage_eq, hsame]
      exact hobs.1
    have hfiles : (index.CollectGarbage env).1.fs.files =
        index.fs.files.filter (fun en => index.database.any (fun r => r.uuid == en.1)) := by
      rw [hstate]
      simp only [Fs.files_keepRecorded]
      apply List.filter_congr
      intro en _
      rw [Bool.eq_iff_iff]
      simp [Table.hasRecord, Table.select, List.filter_eq_nil_iff]
    refine ⟨hfiles, ?_⟩
    intro name content
    rw [hfiles]
    simp

/-- Witness for C12: the commit fails at clock 15 and the blob sweep works; the
expired row `u0` stays, its blob stays with it, and the stray file `zz` is
removed. -/
theorem collect_after_failed_sweep_witness :
    (Storage.dropOldEntries
        ⟨[⟨"u0", 10, "file0"⟩, ⟨"u1", 21, "file1"⟩],
          ⟨some [("u0", [1]), ("zz", [7]), ("u1", [])]⟩, "/tmp/files", 15⟩
        { Env.ok "" with commit := some (Error.other "database is locked") }).2.2.2 =
        some (Error.other "database is locked") ∧
      (Storage.CollectGarbage
        ⟨[⟨"u0", 10, "file0"⟩, ⟨"u1", 21, "file1"⟩],
          ⟨some [("u0", [1]), ("zz", [7]), ("u1", [])]⟩, "/tmp/files", 15⟩
        { Env.ok "" with commit := some (Error.other "database is locked") }).1.database =
        [⟨"u0", 10, "file0"⟩, ⟨"u1", 21, "file1"⟩] ∧
      (Storage.CollectGarbage
        ⟨[⟨"u0", 10, "file0"⟩, ⟨"u1", 21, "file1"⟩],
          ⟨some [("u0", [1]), ("zz", [7]), ("u1", [])]⟩, "/tmp/files", 15⟩
        { Env.ok "" with commit := some (Error.other "database is locked") }).1.fs.files =
        [("u0", [1]), ("u1", [])] :=
  ⟨rfl,
    (collect_after_failed_sweep
      ⟨[⟨"u0", 10, "file0"⟩, ⟨"u1", 21, "file1"⟩],
        ⟨some [("u0", [1]), ("zz", [7]), ("u1", [])]⟩, "/tmp/files", 15⟩
      { Env.ok "" with commit := some (Error.other "database is locked") }
      (Error.other "database is locked") rfl).1,
    ((collect_after_failed_sweep
      ⟨[⟨"u0", 10, "file0"⟩, ⟨"u1", 21, "file1"⟩],
        ⟨some [("u0", [1]), ("zz", [7]), ("u1", [])]⟩, "/tmp/files", 15⟩
      { Env.ok "" with commit := some (Error.other "database is locked") }
      (Error.other "database is locked") rfl).2.2 (fun _ => rfl) (fun _ => rfl)).1⟩

/-- C13, the code at a failing expired-record sweep: `Begin` fails with "database
is locked", so `dropOldEntries` returns that error; the orphaned-blob sweep then
succeeds and its `nil` is what `CollectGarbage()` returns, the variable `err`
having been assigned again. -/
theorem collect_error_not_returned :
    (Storage.dropOldEntries
        ⟨[⟨"u0", 10, "file0"⟩], ⟨some [("u0", [1]), ("zz", [7])]⟩, "/tmp/files", 15⟩
        { Env.ok "" with begin := some (Error.other "database is locked") }).2.2.2 =
        some (Error.other "database is locked") ∧
      Storage.CollectGarbage
        ⟨[⟨"u0", 10, "file0"⟩], ⟨some [("u0", [1]), ("zz", [7])]⟩, "/tmp/files", 15⟩
        { Env.ok "" with begin := some (Error.other "database is locked") } =
        (⟨[⟨"u0", 10, "file0"⟩], ⟨some [("u0", [1])]⟩, "/tmp/files", 15⟩, none) := by
  refine ⟨rfl, ?_⟩
  decide

/-- C14: let the walk of the orphaned-blob sweep visit the names `visited`, then
`x`, then `rest`, let no call fail on `visited`, and let the call on `x` fail with
`e` (its query fails, or it has no row and its removal fails).  Then the sweep
stops at `x` and `CollectGarbage()` returns `e`; the entries of `visited` without
a row are removed and stay so; the entries not visited yet, `x` included, are
untouched; and no entry with a row is removed. -/
theorem sweep_stops_at_failure (index : Storage) (env : Env) (e : Error)
    (visited rest : List String) (x : String)
    (hnames : readDirNames index.fs = visited ++ x :: rest)
    (hquery : ∀ n ∈ visited, env.query n = none)
    (hremove : ∀ n ∈ visited,
      Table.hasRecord (index.dropOldEntries env).1.database n = false →
        env.remove (filepathJoin index.storagePath n) = none)
    (hfail : env.query x = some e ∨
      (env.query x = none ∧ Table.hasRecord (index.dropOldEntries env).1.database x = false ∧
        env.remove (filepathJoin index.storagePath x) = some e)) :
    (index.CollectGarbage env).2 = some e ∧
      (index.CollectGarbage env).1.database = (index.dropOldEntries env).1.database ∧
      (index.CollectGarbage env).1.fs.files =
        index.fs.files.filter (fun en =>
          !(decide (en.1 ∈ visited) &&
            !Table.hasRecord (index.dropOldEntries env).1.database en.1)) ∧
      (∀ en ∈ index.fs.files, en.1 ∈ visited →
        Table.hasRecord (index.dropOldEntries env).1.database en.1 = false →
          en ∉ (index.CollectGarbage env).1.fs.files) ∧
      (∀ en ∈ index.fs.files, en.1 ∉ visited → en ∈ (index.CollectGarbage env).1.fs.files) ∧
      ((readDirNames index.fs).Nodup → ∀ en ∈ index.fs.files, en.1 ∈ x :: rest →
        en ∈ (index.CollectGarbage env).1.fs.files) ∧
      (∀ en ∈ index.fs.files,
        Table.hasRecord (index.dropOldEntries env).1.database en.1 = true →
          en ∈ (index.CollectGarbage env).1.fs.files) := by
  obtain ⟨hfs, hpath, _⟩ := Storage.dropOldEntries_frame index env
  have hnames1 : readDirNames (index.dropOldEntries env).1.fs = visited ++ x :: rest := by
    rw [hfs]
    exact hnames
  have hremove1 : ∀ n ∈ visited,
      (Table.select (index.dropOldEntries env).1.database n).isEmpty = true →
        env.remove (filepathJoin (index.dropOldEntries env).1.storagePath n) = none := by
    intro n hn hempty
    rw [hpath]
    exact hremove n hn (by simp [Table.hasRecord, hempty])
  have hfail1 : env.query x = some e ∨
      (env.query x = none ∧
        (Table.select (index.dropOldEntries env).1.database x).isEmpty = true ∧
        env.remove (filepathJoin (index.dropOldEntries env).1.storagePath x) = some e) := by
    rcases hfail with hq | ⟨hq, hrec, hr⟩
    · exact Or.inl hq
    · refine Or.inr ⟨hq, ?_, by rw [hpath]; exact hr⟩
      simpa [Table.hasRecord] using hrec
  obtain ⟨herr, hstate⟩ := Storage.dropObsoleteFiles_failed (index.dropOldEntries env).1 env e
    visited rest x hnames1 hquery hremove1 hfail1
  have hfiles : (index.CollectGarbage env).1.fs.files =
      index.fs.files.filter (fun en =>
        !(decide (en.1 ∈ visited) &&
          !Table.hasRecord (index.dropOldEntries env).1.database en.1)) := by
    rw [Storage.CollectGarbage_eq, hstate, hfs]
    unfold Fs.files
    cases index.fs.root with
    | none => rfl
    | some files =>
      simp only [Option.map_some', Option.getD_some]
      apply List.filter_congr
      intro en _
      simp [walkKeeps, Table.hasRecord]
  refine ⟨?_, ?_, hfiles, ?_, ?_, ?_, ?_⟩
  · rw [Storage.CollectGarbage_eq]
    exact herr
  · rw [Storage.CollectGarbage_eq, hstate]
  · intro en _ hvis hrec
    rw [hfiles]
    simp [hvis, hrec]
  · intro en hen hvis
    rw [hfiles]
    simp [hen, hvis]
  · intro hnodup en hen htail
    rw [hfiles]
    have hvis : en.1 ∉ visited := by
      rw [hnames] at hnodup
      exact fun hv => (List.nodup_append.1 hnodup).2.2 hv htail
    simp [hen, hvis]
  · intro en hen hrec
    rw [hfiles]
    simp [hen, hrec]

/-- Witness for C14: the walk visits `u1`, `zz1`, `zz2`, `zz3`; only `u1` has a
row, and the removal of `zz2` fails.  `zz1` is removed, `zz2` and `zz3` stay, and
the error of the removal is returned. -/
theorem sweep_stops_at_failure_witness :
    (Storage.CollectGarbage
        ⟨[⟨"u1", 100, "file1"⟩],
          ⟨some [("zz1", [1]), ("u1", [2]), ("zz2", [3]), ("zz3", [4])]⟩, "/tmp/files", 15⟩
        { Env.ok "" with
          remove := fun p =>
            if p = "/tmp/files/zz2" then some (Error.other "permission denied") else none }).2 =
        some (Error.other "permission denied") ∧
      (Storage.CollectGarbage
        ⟨[⟨"u1", 100, "file1"⟩],
          ⟨some [("zz1", [1]), ("u1", [2]), ("zz2", [3]), ("zz3", [4])]⟩, "/tmp/files", 15⟩
        { Env.ok "" with
          remove := fun p =>
            if p = "/tmp/files/zz2" then some (Error.other "permission denied")
            else none }).1.fs.files =
        [("u1", [2]), ("zz2", [3]), ("zz3", [4])] := by
  have h := sweep_stops_at_failure
    ⟨[⟨"u1", 100, "file1"⟩],
      ⟨some [("zz1", [1]), ("u1", [2]), ("zz2", [3]), ("zz3", [4])]⟩, "/tmp/files", 15⟩
    { Env.ok "" with
      remove := fun p =>
        if p = "/tmp/files/zz2" then some (Error.other "permission denied") else none }
    (Error.other "permission denied") ["u1", "zz1"] ["zz3"] "zz2" (by decide)
    (fun _ _ => rfl) (by decide) (Or.inr ⟨rfl, by decide, by decide⟩)
  exact ⟨h.1, h.2.2.1⟩

/-- C15: a successful `NewStorage` returns a `Storage` whose blob root exists and
which holds the rows and the entries that were there before, unchanged; over a
record store without rows `Count()` is 0; and constructing a `Storage` again over
the stores of the first gives the same rows and the same file system.  When
`MkdirAll`, `Prepare` or `Exec` fails, `NewStorage` returns that error and no
`Storage`. -/
theorem newStorage_provisions (database : Option Table) (fs : Fs) (storagePath : String)
    (time : Int) (env : Env) :
    (∀ s, NewStorage database fs storagePath time env = .ok s →
        s.fs.root.isSome = true ∧ s.fs.files = fs.files ∧ s.database = database.getD [] ∧
        s.storagePath = storagePath ∧
        (database.getD [] = [] → ∀ env1 : Env, env1.queryCount = none → env1.scanCount = none →
          s.Count env1 = (0, none)) ∧
        (∀ (time1 : Int) (env1 : Env), env1.mkdirAll = none → env1.prepare = none →
          env1.exec = none →
          NewStorage (some s.database) s.fs storagePath time1 env1 =
            .ok { s with time := time1 })) ∧
      (∀ e, env.mkdirAll = some e →
        NewStorage database fs storagePath time env = .error e) ∧
      (∀ e, env.mkdirAll = none → env.prepare = some e →
        NewStorage database fs storagePath time env = .error e) ∧
      (∀ e, env.mkdirAll = none → env.prepare = none → env.exec = some e →
        NewStorage database fs storagePath time env = .error e) := by
  refine ⟨?_, ?_, ?_, ?_⟩
  · intro s hs
    unfold NewStorage Fs.MkdirAll at hs
    cases hm : env.mkdirAll with
    | some e => simp [hm] at hs
    | none =>
      cases hp : env.prepare with
      | some e => simp [hm, hp] at hs
      | none =>
        cases hx : env.exec with
        | some e => simp [hm, hp, hx] at hs
        | none =>
          simp only [hm, hp, hx] at hs
          have hs1 := (Except.ok.inj hs).symm
          subst hs1
          refine ⟨rfl, rfl, rfl, rfl, ?_, ?_⟩
          · intro hempty env1 hq hsc
            simp [Storage.Count, hq, hsc, hempty]
          · intro time1 env1 hm1 hp1 hx1
            simp [NewStorage, Fs.MkdirAll, hm1, hp1, hx1, Fs.files]
  · intro e hm
    simp [NewStorage, Fs.MkdirAll, hm]
  · intro e hm hp
    simp [NewStorage, Fs.MkdirAll, hm, hp]
  · intro e hm hp hx
    simp [NewStorage, Fs.MkdirAll, hm, hp, hx]

/-- Witness for C15: the construction of `makeStorage` in the tests, on a database
without table and a file system without the root: the root exists afterwards and
`Count()` is 0 (`TestNewStorage`); a construction whose `Prepare` fails returns
the error. -/
theorem newStorage_provisions_witness :
    NewStorage none ⟨none⟩ "/tmp/files" 0 (Env.ok "") = .ok ⟨[], ⟨some []⟩, "/tmp/files", 0⟩ ∧
      Storage.Count ⟨[], ⟨some []⟩, "/tmp/files", 0⟩ (Env.ok "") = (0, none) ∧
      NewStorage (some []) ⟨some []⟩ "/tmp/files" 7 (Env.ok "") =
        .ok ⟨[], ⟨some []⟩, "/tmp/files", 7⟩ ∧
      NewStorage none ⟨none⟩ "/tmp/files" 0
          { Env.ok "" with prepare := some (Error.other "database is closed") } =
        .error (Error.other "database is closed") :=
  ⟨rfl,
    ((newStorage_provisions none ⟨none⟩ "/tmp/files" 0 (Env.ok "")).1
      ⟨[], ⟨some []⟩, "/tmp/files", 0⟩ rfl).2.2.2.2.1 rfl (Env.ok "") rfl rfl,
    ((newStorage_provisions none ⟨none⟩ "/tmp/files" 0 (Env.ok "")).1
      ⟨[], ⟨some []⟩, "/tmp/files", 0⟩ rfl).2.2.2.2.2 7 (Env.ok "") rfl rfl rfl,
    (newStorage_provisions none ⟨none⟩ "/tmp/files" 0
      { Env.ok "" with prepare := some (Error.other "database is closed") }).2.2.1
      (Error.other "database is closed") rfl rfl⟩

/-- C16, the code at an overflowing sum: the route `/upload/{lifetime:[0-9]+}` and
`ParseInt` let the lifetime 9223372036854775807 through; at the clock value
1700000000 the `int64` sum wraps to -9223372035154775809, which is before the
clock value, and a collection at the same clock value removes the row and the
blob just uploaded. -/
theorem expiry_overflow :
    strconvParseInt "9223372036854775807" = .ok 9223372036854775807 ∧
      int64Add 1700000000 9223372036854775807 = -9223372035154775809 ∧
      ¬ (1700000000 : Int) ≤ int64Add 1700000000 9223372036854775807 ∧
      Storage.New ⟨[], ⟨some []⟩, "/tmp/files", 1700000000⟩ (Env.ok "u1") 9223372036854775807
          ⟨[1], none⟩ "file0" =
        (⟨[⟨"u1", -9223372035154775809, "file0"⟩], ⟨some [("u1", [1])]⟩, "/tmp/files",
            1700000000⟩, .ok "u1") ∧
      Storage.CollectGarbage
          ⟨[⟨"u1", -9223372035154775809, "file0"⟩], ⟨some [("u1", [1])]⟩, "/tmp/files",
            1700000000⟩ (Env.ok "") =
        (⟨[], ⟨some []⟩, "/tmp/files", 1700000000⟩, none) := by
  refine ⟨rfl, by decide, by decide, rfl, by decide⟩

/-- C17, the code at a value made of white space: with `SSH_ORIGINAL_COMMAND`
equal to one space, `strings.Fields` returns no field and the index `[0]` is out
of range.  This is the only way `getFilename` fails: it does so exactly for the
values that are not empty and hold white space only; for the empty value it
returns the decimal timestamp. -/
theorem getFilename_index_out_of_range :
    getFilename " " 1700000000 = none ∧
      (∀ (originalCmd : String) (unixNow : Int),
        getFilename originalCmd unixNow = none ↔
          originalCmd ≠ "" ∧ ∀ c ∈ originalCmd.data, isSpace c = true) ∧
      (∀ unixNow : Int, getFilename "" unixNow = some (toString unixNow)) ∧
      getFilename "" 1700000000 = some "1700000000" ∧
      getFilename "scp -t /tmp/report.pdf" 1700000000 = some "scp" := by
  refine ⟨by decide, ?_, fun _ => rfl, by decide, by decide⟩
  intro originalCmd unixNow
  unfold getFilename
  by_cases hlen : originalCmd.length = 0
  · have hempty : originalCmd = "" := by
      apply String.ext
      exact List.length_eq_zero.1 hlen
    simp [hlen, hempty]
  · have hne : originalCmd ≠ "" := by
      intro h
      exact hlen (by rw [h]; rfl)
    simp only [hlen, if_false, hne, ne_eq, not_false_eq_true, true_and]
    rw [List.getElem?_eq_none_iff]
    simp only [stringsFields, List.length_map, Nat.le_zero_eq, List.length_eq_zero]
    rw [fieldsAux_eq_nil_iff]
    simp

end FileShare
